import Mathlib

/-!
# Verification of the boardroom coordination substrate

A shallow embedding, in Lean 4, of the parts of the repository that the
checked claims are about:

* `src/shared/secure_messaging.py` — the secure envelope
  (`SecureMessaging.create_secure_message` / `verify_secure_message`,
  `_encrypt_payload` / `_decrypt_payload`, `_verify_timestamp`);
* `src/hub/services/agent_registry.py` — the agent registry
  (`register_agent`, `get_agent`, `get_all_agents`,
  `get_agents_by_capability`, `update_agent_heartbeat`, `remove_agent`);
* `src/hub/services/orchestration_engine.py` — the orchestration engine
  (`route_request`, `process_collaboration_response`,
  `_needs_additional_collaboration`, `_determine_next_agent`,
  `_prepare_data_package`);
* `src/hub/services/vm_communication_manager.py` — `send_to_agent`;
* `src/hub/services/unified_llm_manager.py` — `route_to_agent`
  (the mock keyword router, which both of its branches reduce to) and
  `synthesize_results`.

Modelling conventions:

* A Python/JSON value is a `Json` tree.  An object's field list records the
  order in which the keys would appear in the rendered text, so a `Json`
  value doubles as a faithful model of a serialized JSON *string*
  (JSON rendering is injective on such trees).  `json.dumps(x, sort_keys=True)`
  is `Json.sortKeys`; `json.loads` of a rendering is the identity on the tree.
* RFC3339 timestamp strings are modelled as their time value in seconds;
  JSON numbers in general are exact decimals (`JNum`), which covers every
  numeric literal the code manipulates exactly.
* `datetime.utcnow()`, `uuid.uuid4().hex[:8]`, `secrets.token_hex`, and
  `random.*` are nondeterministic inputs; they are threaded in as explicit
  arguments.
* Mutation of the in-memory dictionaries (`self.agents`,
  `self.active_requests`, …) is modelled by explicit state passing over
  association lists that preserve Python's dict insertion order.
* Exceptions are modelled where they are reachable: a code path that raises
  and is caught by an enclosing `except` is embedded as the value that the
  `except` clause returns, with any mutations performed before the raise
  kept (as in Python).
-/

namespace Boardroom

/-! ## JSON values

`Json` models both parsed Python values and (via the field order of
objects) their serialized text. -/

/-- A JSON/Python number as the exact decimal `mantissa × 10⁻ᵉˣᵖ¹⁰`.  Every
numeric literal the embedded code manipulates (timestamps in seconds,
confidence scores such as `0.6`, window sizes such as `300`) is an exact
decimal, so this representation is lossless; arithmetic and comparisons on
it are integer cross-multiplications, with `toRat` giving the denoted
value. -/
structure JNum where
  mantissa : Int
  exp10 : Nat
deriving DecidableEq

namespace JNum

/-- The rational value a `JNum` denotes. -/
def toRat (x : JNum) : ℚ := (x.mantissa : ℚ) / (10 : ℚ) ^ x.exp10

/-- An integer as a `JNum`. -/
def ofInt (n : Int) : JNum := ⟨n, 0⟩

/-- Exact subtraction (common-denominator cross multiplication). -/
def sub (a b : JNum) : JNum :=
  ⟨a.mantissa * 10 ^ b.exp10 - b.mantissa * 10 ^ a.exp10, a.exp10 + b.exp10⟩

/-- Decidable `≤` on the denoted values. -/
def ble (a b : JNum) : Bool :=
  decide (a.mantissa * 10 ^ b.exp10 ≤ b.mantissa * 10 ^ a.exp10)

/-- Decidable `<` on the denoted values. -/
def blt (a b : JNum) : Bool :=
  decide (a.mantissa * 10 ^ b.exp10 < b.mantissa * 10 ^ a.exp10)

theorem ble_iff (a b : JNum) : a.ble b = true ↔ a.toRat ≤ b.toRat := by
  rw [ble, decide_eq_true_iff, toRat, toRat,
    div_le_div_iff₀ (by positivity) (by positivity)]
  constructor <;> intro h <;> exact_mod_cast h

theorem blt_iff (a b : JNum) : a.blt b = true ↔ a.toRat < b.toRat := by
  rw [blt, decide_eq_true_iff, toRat, toRat,
    div_lt_div_iff₀ (by positivity) (by positivity)]
  constructor <;> intro h <;> exact_mod_cast h

theorem sub_toRat (a b : JNum) : (a.sub b).toRat = a.toRat - b.toRat := by
  simp only [sub, toRat]
  rw [div_sub_div _ _ (by positivity) (by positivity), pow_add]
  push_cast
  ring_nf

theorem ofInt_toRat (n : Int) : (ofInt n).toRat = (n : ℚ) := by
  simp [ofInt, toRat]

end JNum

/-- A JSON value.  Object fields are listed in serialization order, so a
`Json` tree is also a faithful model of one concrete rendered string. -/
inductive Json where
  | null
  | bool (b : Bool)
  | num (n : JNum)
  | str (s : String)
  | arr (elems : List Json)
  | obj (fields : List (String × Json))

namespace Json

mutual
/-- Structural decidable equality for `Json` (needed because the nested
`List` occurrences defeat automatic derivation). -/
def beq : Json → Json → Bool
  | .null, .null => true
  | .bool a, .bool b => a == b
  | .num a, .num b => a == b
  | .str a, .str b => a == b
  | .arr a, .arr b => beqList a b
  | .obj a, .obj b => beqFields a b
  | _, _ => false
def beqList : List Json → List Json → Bool
  | [], [] => true
  | a :: as, b :: bs => beq a b && beqList as bs
  | _, _ => false
def beqFields : List (String × Json) → List (String × Json) → Bool
  | [], [] => true
  | (k, v) :: as, (k', v') :: bs => k == k' && beq v v' && beqFields as bs
  | _, _ => false
end

end Json

mutual
theorem Json.beq_eq : ∀ a b : Json, Json.beq a b = true → a = b
  | .null, .null, _ => rfl
  | .bool a, .bool b, h => by simp [Json.beq] at h; simp [h]
  | .num a, .num b, h => by simp [Json.beq] at h; simp [h]
  | .str a, .str b, h => by simp [Json.beq] at h; simp [h]
  | .arr a, .arr b, h => by
      simp only [Json.beq] at h
      exact congrArg Json.arr (Json.beqList_eq a b h)
  | .obj a, .obj b, h => by
      simp only [Json.beq] at h
      exact congrArg Json.obj (Json.beqFields_eq a b h)
theorem Json.beqList_eq : ∀ a b : List Json, Json.beqList a b = true → a = b
  | [], [], _ => rfl
  | a :: as, b :: bs, h => by
      simp only [Json.beqList, Bool.and_eq_true] at h
      rw [Json.beq_eq a b h.1, Json.beqList_eq as bs h.2]
theorem Json.beqFields_eq :
    ∀ a b : List (String × Json), Json.beqFields a b = true → a = b
  | [], [], _ => rfl
  | (k, v) :: as, (k', v') :: bs, h => by
      simp only [Json.beqFields, Bool.and_eq_true, beq_iff_eq] at h
      rw [h.1.1, Json.beq_eq v v' h.1.2, Json.beqFields_eq as bs h.2]
end

mutual
theorem Json.beq_refl : ∀ a : Json, Json.beq a a = true
  | .null => rfl
  | .bool a => by simp [Json.beq]
  | .num a => by simp [Json.beq]
  | .str a => by simp [Json.beq]
  | .arr a => by simp only [Json.beq]; exact Json.beqList_refl a
  | .obj a => by simp only [Json.beq]; exact Json.beqFields_refl a
theorem Json.beqList_refl : ∀ a : List Json, Json.beqList a a = true
  | [] => rfl
  | a :: as => by
      simp only [Json.beqList, Bool.and_eq_true]
      exact ⟨Json.beq_refl a, Json.beqList_refl as⟩
theorem Json.beqFields_refl :
    ∀ a : List (String × Json), Json.beqFields a a = true
  | [] => rfl
  | (k, v) :: as => by
      simp only [Json.beqFields, Bool.and_eq_true, beq_self_eq_true, true_and]
      exact ⟨Json.beq_refl v, Json.beqFields_refl as⟩
end

instance : DecidableEq Json := fun a b =>
  if h : Json.beq a b = true then .isTrue (Json.beq_eq a b h)
  else .isFalse (fun he => h (he ▸ Json.beq_refl a))

namespace Json

/-- Python `dict.get(k)` on a parsed JSON object: the binding of `k`, or
`none` when the key is absent or the value is not an object.  (Objects the
code builds have pairwise-distinct keys, so first-match lookup agrees with
Python's last-write-wins dict.) -/
def get : Json → String → Option Json
  | .obj fields, k => fields.lookup k
  | _, _ => none

/-- Python truthiness of a JSON value (`if x:`). -/
def truthy : Json → Bool
  | .null => false
  | .bool b => b
  | .num n => n.mantissa ≠ 0
  | .str s => s ≠ ""
  | .arr xs => !xs.isEmpty
  | .obj fs => !fs.isEmpty

end Json

/-! ### Canonical serialization: `json.dumps(·, sort_keys=True)`

Python's `sorted` is a stable sort; `keyInsert`/`keySort` is the standard
stable insertion sort on the field keys. -/

/-- Python's `<=` on `str`: lexicographic comparison of the code-point
sequences (modelled on the underlying character lists, where the
comparison is kernel-computable). -/
abbrev strLe (a b : String) : Prop := a.data ≤ b.data

/-- Insert one field into a key-sorted field list, keeping equal keys in
their original relative order (stability, as Python's `sorted`). -/
def keyInsert (p : String × Json) : List (String × Json) → List (String × Json)
  | [] => [p]
  | q :: rest => if strLe p.1 q.1 then p :: q :: rest else q :: keyInsert p rest

/-- Stable insertion sort of a field list by key, as Python's `sorted`. -/
def keySort : List (String × Json) → List (String × Json)
  | [] => []
  | p :: rest => keyInsert p (keySort rest)

mutual
/-- `json.dumps(·, sort_keys=True)`: recursively sort every object's keys.
The result models the canonical serialization of the value. -/
def Json.sortKeys : Json → Json
  | .null => .null
  | .bool b => .bool b
  | .num q => .num q
  | .str s => .str s
  | .arr xs => .arr (sortKeysList xs)
  | .obj fs => .obj (keySort (sortKeysFields fs))
def sortKeysList : List Json → List Json
  | [] => []
  | x :: xs => x.sortKeys :: sortKeysList xs
def sortKeysFields : List (String × Json) → List (String × Json)
  | [] => []
  | (k, v) :: fs => (k, v.sortKeys) :: sortKeysFields fs
end

/-- Python `==` on parsed JSON values: equality of dictionaries ignores key
order, so two values are equal exactly when their canonical serializations
coincide. -/
def Json.pyEq (a b : Json) : Prop := a.sortKeys = b.sortKeys

/-! ### Structural lemmas about canonical serialization -/

theorem sortKeysList_eq_map (xs : List Json) :
    sortKeysList xs = xs.map Json.sortKeys := by
  induction xs with
  | nil => rfl
  | cons x xs ih => simp [sortKeysList, ih]

theorem sortKeysFields_eq_map (fs : List (String × Json)) :
    sortKeysFields fs = fs.map (fun p => (p.1, p.2.sortKeys)) := by
  induction fs with
  | nil => rfl
  | cons p fs ih => cases p; simp [sortKeysFields, ih]

/-- Induction over `Json` with membership hypotheses for the nested lists. -/
theorem Json.mem_induction (motive : Json → Prop)
    (hnull : motive .null)
    (hbool : ∀ b, motive (.bool b))
    (hnum : ∀ q, motive (.num q))
    (hstr : ∀ s, motive (.str s))
    (harr : ∀ xs, (∀ x ∈ xs, motive x) → motive (.arr xs))
    (hobj : ∀ fs, (∀ p ∈ fs, motive p.2) → motive (.obj fs)) :
    ∀ j, motive j := by
  have key : ∀ n (j : Json), sizeOf j ≤ n → motive j := by
    intro n
    induction n with
    | zero =>
      intro j hj
      exfalso
      cases j <;> simp_arith at hj
    | succ n ih =>
      intro j hj
      cases j with
      | null => exact hnull
      | bool b => exact hbool b
      | num q => exact hnum q
      | str s => exact hstr s
      | arr xs =>
        refine harr xs (fun x hx => ih x ?_)
        have h1 := List.sizeOf_lt_of_mem hx
        simp only [Json.arr.sizeOf_spec] at hj
        omega
      | obj fs =>
        refine hobj fs (fun p hp => ih p.2 ?_)
        have h1 := List.sizeOf_lt_of_mem hp
        have h2 : sizeOf p.2 < sizeOf p := by
          cases p with
          | mk k v => simp_arith
        simp only [Json.obj.sizeOf_spec] at hj
        omega
  intro j
  exact key (sizeOf j) j le_rfl

theorem keyInsert_perm (p : String × Json) (l : List (String × Json)) :
    (keyInsert p l).Perm (p :: l) := by
  induction l with
  | nil => exact List.Perm.refl _
  | cons q rest ih =>
    by_cases h : strLe p.1 q.1
    · simp [keyInsert, h]
    · simp only [keyInsert, h, if_false]
      exact (List.Perm.cons q ih).trans (List.Perm.swap p q rest)

theorem keySort_perm (l : List (String × Json)) : (keySort l).Perm l := by
  induction l with
  | nil => exact List.Perm.refl _
  | cons p rest ih =>
    exact ((keyInsert_perm p (keySort rest)).trans (List.Perm.cons p ih))

/-- Field lists in key order (the shape `keySort` produces). -/
def KeysSorted (l : List (String × Json)) : Prop :=
  l.Pairwise (fun a b => strLe a.1 b.1)

theorem keyInsert_sorted {p : String × Json} {l : List (String × Json)}
    (hl : KeysSorted l) : KeysSorted (keyInsert p l) := by
  induction l with
  | nil => simp [keyInsert, KeysSorted]
  | cons q rest ih =>
    rcases (List.pairwise_cons.mp hl) with ⟨hq, hrest⟩
    by_cases h : strLe p.1 q.1
    · simp only [keyInsert, h, if_true]
      refine List.pairwise_cons.mpr ⟨?_, hl⟩
      intro r hr
      rcases List.mem_cons.mp hr with rfl | hr
      · exact h
      · exact le_trans h (hq r hr)
    · simp only [keyInsert, h, if_false]
      refine List.pairwise_cons.mpr ⟨?_, ih hrest⟩
      intro r hr
      have hr' := (keyInsert_perm p rest).mem_iff.mp hr
      rcases List.mem_cons.mp hr' with rfl | hr'
      · exact le_of_lt (lt_of_not_le h)
      · exact hq r hr'

theorem keySort_sorted (l : List (String × Json)) : KeysSorted (keySort l) := by
  induction l with
  | nil => simp [keySort, KeysSorted]
  | cons p rest ih => exact keyInsert_sorted ih

theorem keySort_of_sorted {l : List (String × Json)} (hl : KeysSorted l) :
    keySort l = l := by
  induction l with
  | nil => rfl
  | cons p rest ih =>
    rcases (List.pairwise_cons.mp hl) with ⟨hp, hrest⟩
    simp only [keySort, ih hrest]
    cases rest with
    | nil => rfl
    | cons q rest' =>
      have : strLe p.1 q.1 := hp q (by simp)
      simp [keyInsert, this]

theorem keySort_idem (l : List (String × Json)) :
    keySort (keySort l) = keySort l :=
  keySort_of_sorted (keySort_sorted l)

/-- Canonical serialization is idempotent: re-serializing an
already-canonical value changes nothing. -/
theorem Json.sortKeys_idem : ∀ j : Json, j.sortKeys.sortKeys = j.sortKeys := by
  refine Json.mem_induction _ rfl (fun _ => rfl) (fun _ => rfl) (fun _ => rfl) ?_ ?_
  · intro xs ih
    simp only [Json.sortKeys, sortKeysList_eq_map, List.map_map]
    refine congrArg Json.arr (List.map_congr_left ?_)
    intro x hx
    simp [Function.comp, ih x hx]
  · intro fs ih
    simp only [Json.sortKeys, sortKeysFields_eq_map]
    refine congrArg Json.obj ?_
    have hmap : (keySort (fs.map fun p => (p.1, p.2.sortKeys))).map
        (fun p => (p.1, p.2.sortKeys)) = keySort (fs.map fun p => (p.1, p.2.sortKeys)) := by
      refine List.map_congr_left ?_ |>.trans
        (List.map_id (keySort (fs.map fun p => (p.1, p.2.sortKeys))))
      intro q hq
      have hq' := (keySort_perm _).mem_iff.mp hq
      rcases List.mem_map.mp hq' with ⟨p, hp, rfl⟩
      simp [ih p hp]
    rw [hmap, keySort_idem]

theorem Json.pyEq_refl (a : Json) : a.pyEq a := rfl

theorem Json.pyEq_sortKeys (a : Json) : a.sortKeys.pyEq a :=
  Json.sortKeys_idem a

/-! ## Secure messaging (`src/shared/secure_messaging.py`)

`SecureMessaging.create_secure_message` / `verify_secure_message` and their
helpers.  The signing key store is injected as `key_manager`; it is not part
of `src/`, so it is modelled from the spec (§4.1). -/

/-- Modelled from the spec: the Key Store (§4.1) is absent from `src/`
(only its callers appear).  Per the spec it signs arbitrary bytes with one
long-lived key pair and `verify (bytes, signature, sender-pem)` holds
exactly for a signature produced by the holder of `sender-pem` over exactly
those bytes.  A signature is modelled by the signer's public key (standing
for the key pair) and the signed serialization. -/
structure Sig where
  signerPem : String
  signedData : Json
deriving DecidableEq

/-- Modelled from the spec: `key_manager.sign_message` (§4.1). -/
def signMessage (selfPem : String) (data : Json) : Sig := ⟨selfPem, data⟩

/-- Modelled from the spec: `key_manager.verify_signature` (§4.1) — true
exactly when `sig` was made by the holder of `pem` over `data`. -/
def verifySignature (data : Json) (sig : Sig) (pem : String) : Bool :=
  decide (sig.signerPem = pem ∧ sig.signedData = data)

/-- The ciphertext blob `_encrypt_payload` produces: base64 of a JSON record
holding a fresh AES-256 key, 96-bit IV, ciphertext and GCM tag.  The key
travels *inside* the blob, so decryption recovers the plaintext exactly when
the GCM tag authenticates; the blob is therefore modelled by its plaintext
(a serialized JSON string, i.e. an ordered `Json` tree) plus the outcome of
the tag check. -/
structure EncryptedPayload where
  plaintext : Json
  tagOk : Bool
deriving DecidableEq

/-- `SecureMessaging._encrypt_payload`: fresh key + IV, AES-256-GCM; the
honest blob always decrypts to its plaintext. -/
def encryptPayload (plaintextJson : Json) : EncryptedPayload :=
  ⟨plaintextJson, true⟩

/-- `SecureMessaging._decrypt_payload`: returns the plaintext, or `None`
when decryption fails (GCM tag mismatch / malformed blob). -/
def decryptPayload (ep : EncryptedPayload) : Option Json :=
  if ep.tagOk then some ep.plaintext else none

/-- The wire envelope dictionary returned by `create_secure_message`.
Absent dictionary keys are `none` (Python `dict.get` returns `None`). -/
structure SecureWire where
  encrypted : Bool
  encryptedPayload : Option EncryptedPayload
  message : Option Json
  signature : Option Sig
  senderPublicKey : Option String
  senderFingerprint : Option String
deriving DecidableEq

/-- Ambient configuration of one `SecureMessaging` instance: the sender id
from `AGENT_ID` and the key store's public key material. -/
structure MessagingEnv where
  agentId : String
  selfPem : String
  fingerprint : String

/-- `{"error": s}`. -/
def errObj (s : String) : Json := .obj [("error", .str s)]

/-- The inner message dictionary built by `create_secure_message`, with its
keys in Python insertion order. -/
def innerMessage (env : MessagingEnv) (recipientId messageType : String)
    (now : JNum) (nonce : String) (payload : Json) : Json :=
  .obj [("sender_id", .str env.agentId),
        ("recipient_id", .str recipientId),
        ("message_type", .str messageType),
        ("timestamp", .num now),
        ("nonce", .str nonce),
        ("payload", payload)]

/-- `SecureMessaging.create_secure_message`.  `now` is
`datetime.utcnow()` (the RFC3339 string modelled by its time value) and
`nonce` is `secrets.token_hex(16)` (32 hex characters, hence nonempty).
A supplied-but-empty recipient key is falsy in Python, selecting the
unencrypted branch, exactly as `if recipient_public_key:` does. -/
def createSecureMessage (env : MessagingEnv) (recipientId messageType : String)
    (payload : Json) (recipientPublicKey : Option String)
    (now : JNum) (nonce : String) : SecureWire :=
  let message := innerMessage env recipientId messageType now nonce payload
  let messageJson := message.sortKeys
  let sig := signMessage env.selfPem messageJson
  if (recipientPublicKey.getD "") ≠ "" then
    { encrypted := true
      encryptedPayload := some (encryptPayload messageJson)
      message := none
      signature := some sig
      senderPublicKey := some env.selfPem
      senderFingerprint := some env.fingerprint }
  else
    { encrypted := false
      encryptedPayload := none
      message := some message
      signature := some sig
      senderPublicKey := some env.selfPem
      senderFingerprint := some env.fingerprint }

/-- `SecureMessaging._verify_timestamp` with `max_age_seconds` as a
parameter (the caller uses the default 300).  A missing or unparsable
timestamp raises inside the `try` and yields `False`.  The check is
`0 <= age <= max_age_seconds` for `age = current_time - msg_time`. -/
def verifyTimestamp (timestamp : Option Json) (now maxAge : JNum) : Bool :=
  match timestamp with
  | some (.num t) =>
    (JNum.ofInt 0).ble (now.sub t) && (now.sub t).ble maxAge
  | _ => false

/-- Steps 3–5 of `verify_secure_message`, shared by both branches:
signature over `messageJson`, timestamp freshness, nonce presence
(`if not message.get("nonce")` — Python truthiness). -/
def verifyCommon (message messageJson : Json) (sig : Sig) (pem : String)
    (now : JNum) : Bool × Json :=
  if ¬ verifySignature messageJson sig pem then
    (false, errObj "Invalid signature")
  else if ¬ verifyTimestamp (message.get "timestamp") now (JNum.ofInt 300) then
    (false, errObj "Message timestamp too old")
  else if ¬ ((message.get "nonce").map Json.truthy).getD false then
    (false, errObj "Missing message nonce")
  else
    (true, message)

/-- `SecureMessaging.verify_secure_message`.  On the encrypted branch the
code sets `message_json = decrypted_json` (the decrypted plaintext string
as transmitted); on the unencrypted branch it re-serializes the message
with `sort_keys=True`.  The instance keeps no nonce cache: the only nonce
check is presence ("in production, would check against cache / for now,
just ensure it exists"). -/
def verifySecureMessage (w : SecureWire) (now : JNum) : Bool × Json :=
  match w.signature, w.senderPublicKey with
  | some sig, some pem =>
    if pem = "" then (false, errObj "Missing signature or public key")
    else if w.encrypted then
      match w.encryptedPayload with
      | none =>
        -- `secure_message["encrypted_payload"]` raises `KeyError`; the
        -- enclosing `except` returns the exception text.
        (false, errObj "'encrypted_payload'")
      | some ep =>
        match decryptPayload ep with
        | none => (false, errObj "Failed to decrypt message")
        | some decryptedJson =>
          -- `message = json.loads(decrypted_json)` (identity on the tree)
          -- and `message_json = decrypted_json`: no re-serialization.
          verifyCommon decryptedJson decryptedJson sig pem now
    else
      match w.message with
      | none => (false, errObj "Missing message content")
      | some m =>
        if ¬ m.truthy then (false, errObj "Missing message content")
        else verifyCommon m m.sortKeys sig pem now
  | _, _ => (false, errObj "Missing signature or public key")

/-- A receiver handling a sequence of incoming envelopes: each one is
checked by `verify_secure_message` on the same `SecureMessaging` instance,
which carries no replay state between calls. -/
def verifySequence (ws : List SecureWire) (now : JNum) : List (Bool × Json) :=
  ws.map (fun w => verifySecureMessage w now)

/-! ### Helper lemmas about the envelope pipeline -/

/-- The timestamp step, characterized over the denoted time values:
it passes exactly when the message is between 0 and `maxAge` seconds
*in the past*. -/
theorem verifyTimestamp_iff (t now maxAge : JNum) :
    verifyTimestamp (some (.num t)) now maxAge = true ↔
      0 ≤ now.toRat - t.toRat ∧ now.toRat - t.toRat ≤ maxAge.toRat := by
  simp [verifyTimestamp, Bool.and_eq_true, JNum.ble_iff, JNum.sub_toRat,
    JNum.ofInt_toRat]

/-- The canonical serialization of the inner message dictionary: keys in
sorted order, payload canonicalized. -/
theorem innerMessage_sortKeys (env : MessagingEnv)
    (recipientId messageType : String) (t : JNum) (nonce : String)
    (payload : Json) :
    (innerMessage env recipientId messageType t nonce payload).sortKeys =
      .obj [("message_type", .str messageType),
            ("nonce", .str nonce),
            ("payload", payload.sortKeys),
            ("recipient_id", .str recipientId),
            ("sender_id", .str env.agentId),
            ("timestamp", .num t)] := rfl

/-- Steps 3–5 all pass: `verify_secure_message` returns the message. -/
theorem verifyCommon_result (message messageJson : Json) (sig : Sig)
    (pem : String) (now : JNum)
    (hsig : verifySignature messageJson sig pem = true)
    (hts : verifyTimestamp (message.get "timestamp") now (JNum.ofInt 300) = true)
    (hnon : ((message.get "nonce").map Json.truthy).getD false = true) :
    verifyCommon message messageJson sig pem now = (true, message) := by
  simp [verifyCommon, hsig, hts, hnon]

/-- Verifying an envelope `create_secure_message` built on the encrypted
branch reduces to the common checks over the decrypted canonical
serialization. -/
theorem verify_create_encrypted (env : MessagingEnv)
    (recipientId messageType : String) (payload : Json)
    (recipientPublicKey : Option String) (t now : JNum) (nonce : String)
    (hpem : ¬ env.selfPem = "")
    (hrpk : (recipientPublicKey.getD "") ≠ "") :
    verifySecureMessage
        (createSecureMessage env recipientId messageType payload
          recipientPublicKey t nonce) now =
      verifyCommon (innerMessage env recipientId messageType t nonce payload).sortKeys
        (innerMessage env recipientId messageType t nonce payload).sortKeys
        (signMessage env.selfPem
          (innerMessage env recipientId messageType t nonce payload).sortKeys)
        env.selfPem now := by
  unfold createSecureMessage
  rw [if_pos hrpk]
  simp [verifySecureMessage, decryptPayload, encryptPayload, hpem]

/-- Verifying an envelope `create_secure_message` built on the unencrypted
branch reduces to the common checks with the message re-serialized
canonically. -/
theorem verify_create_plain (env : MessagingEnv)
    (recipientId messageType : String) (payload : Json)
    (recipientPublicKey : Option String) (t now : JNum) (nonce : String)
    (hpem : ¬ env.selfPem = "")
    (hrpk : ¬ (recipientPublicKey.getD "") ≠ "") :
    verifySecureMessage
        (createSecureMessage env recipientId messageType payload
          recipientPublicKey t nonce) now =
      verifyCommon (innerMessage env recipientId messageType t nonce payload)
        (innerMessage env recipientId messageType t nonce payload).sortKeys
        (signMessage env.selfPem
          (innerMessage env recipientId messageType t nonce payload).sortKeys)
        env.selfPem now := by
  unfold createSecureMessage
  rw [if_neg hrpk]
  simp [verifySecureMessage, hpem, innerMessage, Json.truthy]

/-- **C2.** For every JSON-serializable payload and message metadata,
verifying an envelope produced by `create_secure_message` succeeds and
returns the inner message — sender, recipient, kind, timestamp, nonce and
payload unchanged (payload up to Python `==`, which ignores dict key
order) — on both the encrypted path (a nonempty recipient public key was
supplied) and the unencrypted path, given the spec-correct key store and a
verification time within the 300-second freshness window. -/
theorem claim_C2_round_trip (env : MessagingEnv)
    (recipientId messageType : String) (payload : Json)
    (recipientPublicKey : Option String) (t now : JNum) (nonce : String)
    (hpem : env.selfPem ≠ "")
    (hnonce : nonce ≠ "")
    (hlo : 0 ≤ now.toRat - t.toRat)
    (hhi : now.toRat - t.toRat ≤ 300) :
    ∃ m, verifySecureMessage
        (createSecureMessage env recipientId messageType payload
          recipientPublicKey t nonce) now = (true, m)
      ∧ m.get "sender_id" = some (.str env.agentId)
      ∧ m.get "recipient_id" = some (.str recipientId)
      ∧ m.get "message_type" = some (.str messageType)
      ∧ m.get "timestamp" = some (.num t)
      ∧ m.get "nonce" = some (.str nonce)
      ∧ (∃ p, m.get "payload" = some p ∧ p.pyEq payload)
      ∧ m.pyEq (innerMessage env recipientId messageType t nonce payload) := by
  have hts : verifyTimestamp (some (.num t)) now (JNum.ofInt 300) = true := by
    refine (verifyTimestamp_iff t now (JNum.ofInt 300)).mpr ⟨hlo, ?_⟩
    rw [JNum.ofInt_toRat]
    exact_mod_cast hhi
  by_cases hrpk : (recipientPublicKey.getD "") ≠ ""
  · refine ⟨(innerMessage env recipientId messageType t nonce payload).sortKeys,
      ?_, ?_, ?_, ?_, ?_, ?_, ⟨payload.sortKeys, ?_, ?_⟩, ?_⟩
    · rw [verify_create_encrypted env recipientId messageType payload
        recipientPublicKey t now nonce hpem hrpk]
      refine verifyCommon_result _ _ _ _ _ ?_ ?_ ?_
      · simp [verifySignature, signMessage]
      · rw [innerMessage_sortKeys]
        exact hts
      · exact decide_eq_true hnonce
    · rfl
    · rfl
    · rfl
    · rfl
    · rfl
    · rfl
    · exact Json.pyEq_sortKeys payload
    · exact Json.pyEq_sortKeys (innerMessage env recipientId messageType t nonce payload)
  · refine ⟨innerMessage env recipientId messageType t nonce payload,
      ?_, rfl, rfl, rfl, rfl, rfl, ⟨payload, rfl, Json.pyEq_refl payload⟩,
      Json.pyEq_refl _⟩
    rw [verify_create_plain env recipientId messageType payload
      recipientPublicKey t now nonce hpem hrpk]
    refine verifyCommon_result _ _ _ _ _ ?_ ?_ ?_
    · simp [verifySignature, signMessage]
    · exact hts
    · exact decide_eq_true hnonce

/-- Witness for C2, on both branches at concrete inputs: an envelope for
payload `{"x": 1}` built at time 0 and verified at time 10. -/
theorem claim_C2_round_trip_witness :
    ("pemA" : String) ≠ ""
    ∧ ("ab" : String) ≠ ""
    ∧ 0 ≤ (JNum.mk 10 0).toRat - (JNum.mk 0 0).toRat
    ∧ (JNum.mk 10 0).toRat - (JNum.mk 0 0).toRat ≤ 300
    ∧ (∃ m, verifySecureMessage
        (createSecureMessage ⟨"finance-agent", "pemA", "fp"⟩ "hub" "collab"
          (.obj [("x", .num ⟨1, 0⟩)]) (some "rpk") ⟨0, 0⟩ "ab") ⟨10, 0⟩ = (true, m)
      ∧ m.get "sender_id" = some (.str "finance-agent")
      ∧ m.get "recipient_id" = some (.str "hub")
      ∧ m.get "message_type" = some (.str "collab")
      ∧ m.get "timestamp" = some (.num ⟨0, 0⟩)
      ∧ m.get "nonce" = some (.str "ab")
      ∧ (∃ p, m.get "payload" = some p ∧ p.pyEq (.obj [("x", .num ⟨1, 0⟩)]))
      ∧ m.pyEq (innerMessage ⟨"finance-agent", "pemA", "fp"⟩ "hub" "collab"
          ⟨0, 0⟩ "ab" (.obj [("x", .num ⟨1, 0⟩)])))
    ∧ (∃ m, verifySecureMessage
        (createSecureMessage ⟨"finance-agent", "pemA", "fp"⟩ "hub" "collab"
          (.obj [("x", .num ⟨1, 0⟩)]) none ⟨0, 0⟩ "ab") ⟨10, 0⟩ = (true, m)
      ∧ m.get "nonce" = some (.str "ab")) := by
  refine ⟨by decide, by decide, by norm_num [JNum.toRat], by norm_num [JNum.toRat], ?_, ?_⟩
  · exact claim_C2_round_trip ⟨"finance-agent", "pemA", "fp"⟩ "hub" "collab"
      (.obj [("x", .num ⟨1, 0⟩)]) (some "rpk") ⟨0, 0⟩ ⟨10, 0⟩ "ab"
      (by decide) (by decide) (by norm_num [JNum.toRat]) (by norm_num [JNum.toRat])
  · obtain ⟨m, h1, _, _, _, _, h6, _⟩ := claim_C2_round_trip
      ⟨"finance-agent", "pemA", "fp"⟩ "hub" "collab"
      (.obj [("x", .num ⟨1, 0⟩)]) none ⟨0, 0⟩ ⟨10, 0⟩ "ab"
      (by decide) (by decide) (by norm_num [JNum.toRat]) (by norm_num [JNum.toRat])
    exact ⟨m, h1, h6⟩

/-! ### C1 — replay defense -/

/-- A concrete honest envelope and its environment, used as the sample
input for the replay and freshness results. -/
def sampleEnv : MessagingEnv := ⟨"finance-agent", "pemA", "fp"⟩

/-- A valid unencrypted envelope built at time 0. -/
def sampleWire : SecureWire :=
  createSecureMessage sampleEnv "hub" "collaboration_request"
    (.obj [("x", .num ⟨1, 0⟩)]) none ⟨0, 0⟩ "abcd"

/-- The property claim C1 asserts of the code: a receiver tracks accepted
`(sender-id, nonce)` pairs, so when the identical envelope appears a second
time in the stream it handles (within the freshness window), the second
verification fails. -/
def ReplayIsRejected : Prop :=
  ∀ (ws : List SecureWire) (now : JNum) (i j : Nat) (w : SecureWire),
    i < j → ws[i]? = some w → ws[j]? = some w →
    (verifySequence ws now)[i]?.map Prod.fst = some true →
    (verifySequence ws now)[j]?.map Prod.fst = some false

/-- C1 fails on the code: submitting `sampleWire` twice, the first copy is
accepted and the second — identical sender and nonce, same instant — is
accepted again, because `verify_secure_message` keeps no nonce cache. -/
theorem claim_C1_counterexample : ¬ ReplayIsRejected := by
  intro h
  have h2 := h [sampleWire, sampleWire] ⟨0, 0⟩ 0 1 sampleWire
    (by decide) (by decide) (by decide) (by decide)
  exact absurd h2 (by decide)

/-- **C1 (amended).** `verify_secure_message` keeps no replay state (its
only nonce check is presence), so re-submitting an identical envelope to
the same receiver within the freshness window is *accepted again* with the
identical verdict and message, not rejected as a replay. -/
theorem claim_C1_replay_accepted (ws : List SecureWire) (now : JNum)
    (i j : Nat) (w : SecureWire) (res : Bool × Json)
    (hi : ws[i]? = some w) (hj : ws[j]? = some w)
    (hacc : (verifySequence ws now)[i]? = some res) (htrue : res.1 = true) :
    (verifySequence ws now)[j]? = some res ∧ res.1 = true := by
  have hmap : ∀ k : Nat, (verifySequence ws now)[k]? =
      ws[k]?.map (fun w => verifySecureMessage w now) := by
    intro k
    simp [verifySequence]
  have hres : res = verifySecureMessage w now := by
    have := hmap i
    rw [hacc, hi] at this
    simpa using this
  refine ⟨?_, htrue⟩
  rw [hmap j, hj, hres]
  rfl

/-- Witness for C1 (amended): the duplicated `sampleWire` stream. -/
theorem claim_C1_replay_accepted_witness :
    [sampleWire, sampleWire][0]? = some sampleWire
    ∧ [sampleWire, sampleWire][1]? = some sampleWire
    ∧ (verifySequence [sampleWire, sampleWire] ⟨0, 0⟩)[0]? =
        some (verifySecureMessage sampleWire ⟨0, 0⟩)
    ∧ (verifySecureMessage sampleWire ⟨0, 0⟩).1 = true
    ∧ ((verifySequence [sampleWire, sampleWire] ⟨0, 0⟩)[1]? =
          some (verifySecureMessage sampleWire ⟨0, 0⟩)
        ∧ (verifySecureMessage sampleWire ⟨0, 0⟩).1 = true) :=
  ⟨by decide, by decide, by decide, by decide,
    claim_C1_replay_accepted [sampleWire, sampleWire] ⟨0, 0⟩ 0 1 sampleWire
      (verifySecureMessage sampleWire ⟨0, 0⟩)
      (by decide) (by decide) (by decide) (by decide)⟩

/-! ### C6 — freshness window -/

/-- The property claim C6 asserts of the code: the timestamp step accepts
exactly the envelopes within ±300 seconds of the receiver's clock — in
particular a timestamp up to 300 s in the future passes. -/
def FreshnessIsSymmetric : Prop :=
  ∀ t now : JNum,
    verifyTimestamp (some (.num t)) now (JNum.ofInt 300) = true ↔
      |now.toRat - t.toRat| ≤ 300

/-- C6 fails on the code: a timestamp 100 seconds in the future satisfies
`|now − timestamp| ≤ 300` but `_verify_timestamp` rejects it, because the
code requires `0 <= age` for `age = now − timestamp`. -/
theorem claim_C6_counterexample : ¬ FreshnessIsSymmetric := by
  intro h
  have h2 := (h ⟨100, 0⟩ ⟨0, 0⟩).mpr (by norm_num [JNum.toRat])
  exact absurd h2 (by decide)

/-- **C6 (amended).** `_verify_timestamp` accepts exactly the envelopes
whose timestamp lies between 0 and 300 seconds in the *past*
(`0 ≤ now − timestamp ≤ 300`); anything else — including every future
timestamp — is rejected as stale. -/
theorem claim_C6_window (t now : JNum) :
    verifyTimestamp (some (.num t)) now (JNum.ofInt 300) = true ↔
      0 ≤ now.toRat - t.toRat ∧ now.toRat - t.toRat ≤ 300 := by
  rw [verifyTimestamp_iff]
  rw [JNum.ofInt_toRat]
  norm_num

/-! ### C7 — signature check on the encrypted path -/

/-- The property claim C7 asserts of the code: on the encrypted path the
receiver re-serializes the decrypted message canonically and checks the
signature over that canonical serialization — so acceptance implies the
signature is valid over the canonical serialization of the decrypted
content. -/
def SignatureCheckedOverCanonical : Prop :=
  ∀ (w : SecureWire) (now : JNum) (sig : Sig) (pem : String)
    (ep : EncryptedPayload),
    w.encrypted = true → w.signature = some sig →
    w.senderPublicKey = some pem → w.encryptedPayload = some ep →
    (verifySecureMessage w now).1 = true →
    verifySignature ep.plaintext.sortKeys sig pem = true

/-- An encrypted envelope whose plaintext is *not* in canonical key order
(`timestamp` before `nonce`), signed over that non-canonical plaintext. -/
def nonCanonicalPlaintext : Json :=
  .obj [("timestamp", .num ⟨0, 0⟩), ("nonce", .str "n")]

/-- The wire envelope carrying `nonCanonicalPlaintext`. -/
def nonCanonicalWire : SecureWire :=
  { encrypted := true
    encryptedPayload := some ⟨nonCanonicalPlaintext, true⟩
    message := none
    signature := some (signMessage "pemA" nonCanonicalPlaintext)
    senderPublicKey := some "pemA"
    senderFingerprint := some "fp" }

/-- C7 fails on the code: `verify_secure_message` sets
`message_json = decrypted_json` without re-serializing, so
`nonCanonicalWire` — whose signature matches only the non-canonical
plaintext byte string — is accepted even though its signature is invalid
over the canonical serialization. -/
theorem claim_C7_counterexample : ¬ SignatureCheckedOverCanonical := by
  intro h
  have h2 := h nonCanonicalWire ⟨0, 0⟩
    (signMessage "pemA" nonCanonicalPlaintext) "pemA"
    ⟨nonCanonicalPlaintext, true⟩ rfl rfl rfl rfl (by decide)
  exact absurd h2 (by decide)

/-- The acceptance condition of the shared check suffix of
`verify_secure_message`. -/
theorem verifyCommon_fst_iff (message messageJson : Json) (sig : Sig)
    (pem : String) (now : JNum) :
    (verifyCommon message messageJson sig pem now).1 = true ↔
      (verifySignature messageJson sig pem = true
        ∧ verifyTimestamp (message.get "timestamp") now (JNum.ofInt 300) = true
        ∧ ((message.get "nonce").map Json.truthy).getD false = true) := by
  cases h1 : verifySignature messageJson sig pem <;>
    cases h2 : verifyTimestamp (message.get "timestamp") now (JNum.ofInt 300) <;>
      cases h3 : ((message.get "nonce").map Json.truthy).getD false <;>
        simp [verifyCommon, h1, h2, h3]

/-- **C7 (amended).** On the encrypted path, verification decrypts the
ciphertext, JSON-parses the plaintext, and checks the signature over the
decrypted plaintext *exactly as transmitted* — there is no canonical
re-serialization.  So an encrypted envelope verifies iff its signature is
valid over the (possibly non-canonical) decrypted plaintext and the
freshness and nonce-presence checks pass. -/
theorem claim_C7_sig_over_plaintext (w : SecureWire) (now : JNum) (sig : Sig)
    (pem : String) (ep : EncryptedPayload)
    (henc : w.encrypted = true) (hsig : w.signature = some sig)
    (hpk : w.senderPublicKey = some pem) (hpem : pem ≠ "")
    (hep : w.encryptedPayload = some ep) (htag : ep.tagOk = true) :
    (verifySecureMessage w now).1 = true ↔
      (verifySignature ep.plaintext sig pem = true
        ∧ verifyTimestamp (ep.plaintext.get "timestamp") now (JNum.ofInt 300) = true
        ∧ ((ep.plaintext.get "nonce").map Json.truthy).getD false = true) := by
  obtain ⟨enc, epay, msg, sg, spk, fp⟩ := w
  simp only at henc hsig hpk hep
  subst henc hsig hpk hep
  rw [show (verifySecureMessage
      ⟨true, some ep, msg, some sig, some pem, fp⟩ now) =
      (if pem = "" then (false, errObj "Missing signature or public key")
       else match decryptPayload ep with
       | none => (false, errObj "Failed to decrypt message")
       | some d => verifyCommon d d sig pem now) from rfl]
  rw [if_neg hpem]
  rw [show decryptPayload ep = some ep.plaintext by simp [decryptPayload, htag]]
  exact verifyCommon_fst_iff ep.plaintext ep.plaintext sig pem now

/-- Witness for C7 (amended), at `nonCanonicalWire`: both sides of the
equivalence hold at time 0. -/
theorem claim_C7_sig_over_plaintext_witness :
    nonCanonicalWire.encrypted = true
    ∧ nonCanonicalWire.signature =
        some (signMessage "pemA" nonCanonicalPlaintext)
    ∧ nonCanonicalWire.senderPublicKey = some "pemA"
    ∧ ("pemA" : String) ≠ ""
    ∧ nonCanonicalWire.encryptedPayload = some ⟨nonCanonicalPlaintext, true⟩
    ∧ (⟨nonCanonicalPlaintext, true⟩ : EncryptedPayload).tagOk = true
    ∧ ((verifySecureMessage nonCanonicalWire ⟨0, 0⟩).1 = true ↔
        (verifySignature nonCanonicalPlaintext
            (signMessage "pemA" nonCanonicalPlaintext) "pemA" = true
          ∧ verifyTimestamp (nonCanonicalPlaintext.get "timestamp") ⟨0, 0⟩
              (JNum.ofInt 300) = true
          ∧ ((nonCanonicalPlaintext.get "nonce").map Json.truthy).getD false
              = true)) :=
  ⟨rfl, rfl, rfl, by decide, rfl, rfl,
    claim_C7_sig_over_plaintext nonCanonicalWire ⟨0, 0⟩
      (signMessage "pemA" nonCanonicalPlaintext) "pemA"
      ⟨nonCanonicalPlaintext, true⟩ rfl rfl rfl (by decide) rfl rfl⟩

/-! ## Association-list dictionaries

Python `dict`s keyed by strings, preserving insertion order.  `dictSet`
models `d[k] = v` (replace in place or append), `dictGet` models `d.get(k)`
and `dictDel` models `del d[k]`. -/

/-- `d[k] = v`: replace the existing binding in place, else append. -/
def dictSet {β : Type} : List (String × β) → String → β → List (String × β)
  | [], k, v => [(k, v)]
  | (k', v') :: rest, k, v =>
    if k' = k then (k, v) :: rest else (k', v') :: dictSet rest k v

/-- `d.get(k)`. -/
def dictGet {β : Type} : List (String × β) → String → Option β
  | [], _ => none
  | (k', v) :: rest, k => if k = k' then some v else dictGet rest k

/-- `del d[k]` (keys are unique in a Python dict, so removing the first
binding is removal of the binding). -/
def dictDel {β : Type} : List (String × β) → String → List (String × β)
  | [], _ => []
  | (k', v') :: rest, k => if k' = k then rest else (k', v') :: dictDel rest k

/-- The keys of a Python dict are pairwise distinct. -/
def NodupKeys {β : Type} (m : List (String × β)) : Prop :=
  (m.map Prod.fst).Nodup

theorem dictGet_dictSet {β : Type} (m : List (String × β)) (k k' : String)
    (v : β) :
    dictGet (dictSet m k v) k' = if k' = k then some v else dictGet m k' := by
  induction m with
  | nil => simp [dictSet, dictGet]
  | cons p rest ih =>
    obtain ⟨k0, v0⟩ := p
    by_cases h0 : k0 = k
    · subst h0
      by_cases h1 : k' = k0 <;> simp [dictSet, dictGet, h1]
    · by_cases h1 : k' = k0
      · subst h1
        simp [dictSet, dictGet, h0]
      · simp [dictSet, dictGet, h0, h1, ih]

theorem dictGet_dictDel_ne {β : Type} (m : List (String × β)) (k k' : String)
    (hne : k' ≠ k) :
    dictGet (dictDel m k) k' = dictGet m k' := by
  induction m with
  | nil => rfl
  | cons p rest ih =>
    obtain ⟨k0, v0⟩ := p
    by_cases h0 : k0 = k
    · subst h0
      rw [dictDel, if_pos rfl, dictGet, if_neg hne]
    · rw [dictDel, if_neg h0]
      by_cases h1 : k' = k0
      · rw [dictGet, if_pos h1, dictGet, if_pos h1]
      · rw [dictGet, if_neg h1, dictGet, if_neg h1, ih]

/-- `dictSet` keeps the key sequence when the key was already bound and
appends it otherwise. -/
theorem keys_dictSet {β : Type} (m : List (String × β)) (k : String) (v : β) :
    (dictSet m k v).map Prod.fst =
      if k ∈ m.map Prod.fst then m.map Prod.fst
      else m.map Prod.fst ++ [k] := by
  induction m with
  | nil => simp [dictSet]
  | cons p rest ih =>
    obtain ⟨k0, v0⟩ := p
    by_cases h0 : k0 = k
    · subst h0
      simp [dictSet]
    · have hk0 : k ≠ k0 := fun he => h0 he.symm
      have hk : (k ∈ k0 :: rest.map Prod.fst) ↔ k ∈ rest.map Prod.fst := by
        simp [List.mem_cons, hk0]
      by_cases h1 : k ∈ rest.map Prod.fst <;>
        simp [dictSet, h0, h1, ih, hk, hk0]

theorem nodupKeys_dictSet {β : Type} {m : List (String × β)}
    (hm : NodupKeys m) (k : String) (v : β) : NodupKeys (dictSet m k v) := by
  have hm' : (m.map Prod.fst).Nodup := hm
  show (List.map Prod.fst (dictSet m k v)).Nodup
  rw [keys_dictSet]
  by_cases h : k ∈ m.map Prod.fst
  · simpa [h] using hm'
  · simp only [h, if_false]
    simp [List.nodup_append, hm', h]

/-- `dictDel` returns a sublist (the dict minus one binding). -/
theorem dictDel_sublist {β : Type} (m : List (String × β)) (k : String) :
    (dictDel m k).Sublist m := by
  induction m with
  | nil => simp [dictDel]
  | cons p rest ih =>
    obtain ⟨k0, v0⟩ := p
    by_cases h0 : k0 = k
    · simp only [dictDel, h0, if_true]
      exact (List.sublist_cons_self _ _)
    · simp only [dictDel, h0, if_false]
      exact ih.cons₂ _

theorem nodupKeys_dictDel {β : Type} {m : List (String × β)}
    (hm : NodupKeys m) (k : String) : NodupKeys (dictDel m k) :=
  List.Nodup.sublist ((dictDel_sublist m k).map Prod.fst) hm

theorem dictGet_eq_none_of_not_mem_keys {β : Type} {m : List (String × β)}
    {k : String} (h : k ∉ m.map Prod.fst) : dictGet m k = none := by
  induction m with
  | nil => rfl
  | cons p rest ih =>
    obtain ⟨k0, v0⟩ := p
    simp only [List.map_cons, List.mem_cons] at h
    push_neg at h
    simp [dictGet, h.1, ih h.2]

theorem dictGet_dictDel_self {β : Type} {m : List (String × β)}
    (hm : NodupKeys m) (k : String) : dictGet (dictDel m k) k = none := by
  induction m with
  | nil => rfl
  | cons p rest ih =>
    obtain ⟨k0, v0⟩ := p
    rw [NodupKeys, List.map_cons, List.nodup_cons] at hm
    by_cases h0 : k0 = k
    · subst h0
      rw [dictDel, if_pos rfl]
      exact dictGet_eq_none_of_not_mem_keys hm.1
    · rw [dictDel, if_neg h0, dictGet, if_neg (fun he => h0 he.symm)]
      exact ih hm.2


/-! ## Agent registry (`src/hub/services/agent_registry.py`)

`AgentRegistry` keeps `self.agents : dict[agent_id → record]` — keyed
globally by agent id alone — and `self.client_agents : dict[client_id →
list[agent_id]]`, to which `register_agent` *appends*. -/

/-- The agent record `register_agent` builds. -/
structure Agent where
  agent_id : String
  agent_type : String
  capabilities : List String
  endpoint : String
  attestation_endpoint : String
  public_key : String
  attestation_quote : String
  status : String
  registered_at : JNum
  last_seen : JNum
  client_id : String
  measurements : Json
deriving DecidableEq

/-- The registration request body.  `quote` and `public_key` model
`attestation_data.get("quote")` / `.get("public_key")` (absent → `none`). -/
structure RegistrationData where
  agent_id : String
  agent_type : String
  capabilities : List String
  endpoint : String
  attestation_endpoint : String
  quote : Option String
  public_key : Option String
deriving DecidableEq

/-- The two in-memory tables of `AgentRegistry`. -/
structure RegistryState where
  agents : List (String × Agent)
  client_agents : List (String × List String)
deriving DecidableEq

/-- `AgentRegistry.__init__`. -/
def emptyRegistry : RegistryState := ⟨[], []⟩

/-- The outcome dictionary of `register_agent`. -/
inductive RegResult where
  | registered (agent_id : String) (measurements : Json)
  | rejected (error : Json)
deriving DecidableEq

/-- The record `register_agent` stores on success: status `verified`,
`last_seen = now`, owned by the registering client, carrying the verifier's
measurements (`verification_result.get("measurements", {})`). -/
def registeredAgent (rd : RegistrationData) (client_id : String)
    (q pk : String) (attResult : Json) (now : JNum) : Agent :=
  { agent_id := rd.agent_id
    agent_type := rd.agent_type
    capabilities := rd.capabilities
    endpoint := rd.endpoint
    attestation_endpoint := rd.attestation_endpoint
    public_key := pk
    attestation_quote := q
    status := "verified"
    registered_at := now
    last_seen := now
    client_id := client_id
    measurements := (attResult.get "measurements").getD (.obj []) }

/-- `AgentRegistry.register_agent`.  The attestation client's verdict
`(attOk, attResult)` for this quote is an input (it is produced by the
external `attestation_client.verify_attestation_quote`).  A missing or
falsy (empty) quote or public key is rejected before verification;
otherwise, on success, the record is stored under the agent id alone and
the id is appended to the client's list. -/
def register_agent (rd : RegistrationData) (client_id : String)
    (attOk : Bool) (attResult : Json) (now : JNum)
    (s : RegistryState) : RegResult × RegistryState :=
  match rd.quote, rd.public_key with
  | some q, some pk =>
    if q = "" ∨ pk = "" then
      (.rejected (.str "Missing attestation data"), s)
    else if attOk then
      let agent := registeredAgent rd client_id q pk attResult now
      (.registered rd.agent_id agent.measurements,
        { agents := dictSet s.agents rd.agent_id agent
          client_agents := dictSet s.client_agents client_id
            (((dictGet s.client_agents client_id).getD []) ++ [rd.agent_id]) })
    else
      (.rejected ((attResult.get "error").getD
        (.str "Attestation verification failed")), s)
  | _, _ => (.rejected (.str "Missing attestation data"), s)

/-- `AgentRegistry.get_agent`: global lookup by agent id, then a
client-scope check on the stored record. -/
def get_agent (s : RegistryState) (agent_id client_id : String) :
    Option Agent :=
  match dictGet s.agents agent_id with
  | some a => if a.client_id = client_id then some a else none
  | none => none

/-- `AgentRegistry.get_all_agents`: walk the client's id list and return
every id that still resolves in the global table (whoever owns it now). -/
def get_all_agents (s : RegistryState) (client_id : String) : List Agent :=
  ((dictGet s.client_agents client_id).getD []).filterMap
    (fun aid => dictGet s.agents aid)

/-- `AgentRegistry.get_agents_by_capability`: same walk, filtered to
verified records carrying the capability. -/
def get_agents_by_capability (s : RegistryState)
    (capability client_id : String) : List Agent :=
  ((dictGet s.client_agents client_id).getD []).filterMap
    (fun aid =>
      match dictGet s.agents aid with
      | some a =>
        if capability ∈ a.capabilities ∧ a.status = "verified" then some a
        else none
      | none => none)

/-- `AgentRegistry.update_agent_heartbeat`: refresh `last_seen` only when
the record exists for that client. -/
def update_agent_heartbeat (s : RegistryState) (agent_id client_id : String)
    (now : JNum) : Bool × RegistryState :=
  match get_agent s agent_id client_id with
  | some a =>
    let a2 : Agent := { a with last_seen := now }
    (true, { agents := dictSet s.agents agent_id a2
             client_agents := s.client_agents })
  | none => (false, s)

/-- `AgentRegistry.remove_agent`: delete the record and remove the id from
the client's list (first occurrence, as Python's `list.remove`). -/
def remove_agent (s : RegistryState) (agent_id client_id : String) :
    Bool × RegistryState :=
  match get_agent s agent_id client_id with
  | some _ =>
    (true,
      { agents := dictDel s.agents agent_id
        client_agents := dictSet s.client_agents client_id
          (((dictGet s.client_agents client_id).getD []).erase agent_id) })
  | none => (false, s)

/-- One mutating call to the registry.  (The health sweep of
`check_agent_health` mutates only the `status` field of listed records and
touches neither table membership nor record ownership, so it is omitted
from the call alphabet; the claims below concern membership and
ownership.) -/
inductive RegOp where
  | register (rd : RegistrationData) (client_id : String) (attOk : Bool)
      (attResult : Json) (now : JNum)
  | heartbeat (agent_id client_id : String) (now : JNum)
  | remove (agent_id client_id : String)
deriving DecidableEq

/-- Apply one registry call (dropping its returned value). -/
def regStep (s : RegistryState) : RegOp → RegistryState
  | .register rd c ok res now => (register_agent rd c ok res now s).2
  | .heartbeat a c now => (update_agent_heartbeat s a c now).2
  | .remove a c => (remove_agent s a c).2

/-- The registry state after a call trace, from a fresh registry. -/
def regRun (ops : List RegOp) : RegistryState :=
  ops.foldl regStep emptyRegistry

/-- Whether `op` is a registration of agent `aid` under client `client`
that succeeds (quote and key present and nonempty, attestation verified). -/
def successfulReg (op : RegOp) (aid client : String) : Bool :=
  match op with
  | .register rd c ok _ _ =>
    rd.agent_id == aid && c == client && ok
      && !(rd.quote.getD "" == "") && !(rd.public_key.getD "" == "")
  | _ => false

/-- Whether an op is a `register` call (any outcome). -/
def isRegisterOp : RegOp → Bool
  | .register _ _ _ _ _ => true
  | _ => false

/-- The client's id list in a state (empty when the client is unknown). -/
def clientIndex (s : RegistryState) (client_id : String) : List String :=
  (dictGet s.client_agents client_id).getD []

/-- A registration with a missing quote or public key leaves the state
unchanged. -/
theorem register_agent_no_cred (rd : RegistrationData) (client_id : String)
    (ok : Bool) (attResult : Json) (now : JNum) (s : RegistryState)
    (h : rd.quote = none ∨ rd.public_key = none) :
    (register_agent rd client_id ok attResult now s).2 = s := by
  unfold register_agent
  rcases h with h | h
  · rw [h]
  · rw [h]
    rcases rd.quote with _ | q <;> rfl

/-- A registration with an empty (falsy) quote or public key leaves the
state unchanged. -/
theorem register_agent_empty_cred (rd : RegistrationData) (client_id : String)
    (ok : Bool) (attResult : Json) (now : JNum) (s : RegistryState)
    (q pk : String) (hq : rd.quote = some q) (hp : rd.public_key = some pk)
    (h : q = "" ∨ pk = "") :
    (register_agent rd client_id ok attResult now s).2 = s := by
  unfold register_agent
  rw [hq, hp]
  simp [h]

/-- A registration whose attestation fails leaves the state unchanged. -/
theorem register_agent_attfail (rd : RegistrationData) (client_id : String)
    (attResult : Json) (now : JNum) (s : RegistryState)
    (q pk : String) (hq : rd.quote = some q) (hp : rd.public_key = some pk)
    (h : ¬ (q = "" ∨ pk = "")) :
    (register_agent rd client_id false attResult now s).2 = s := by
  unfold register_agent
  rw [hq, hp]
  simp [h]

/-- A successful registration: the record is upserted into the global
table under the agent id, and the id is appended to the client's list. -/
theorem register_agent_success (rd : RegistrationData) (client_id : String)
    (attResult : Json) (now : JNum) (s : RegistryState)
    (q pk : String) (hq : rd.quote = some q) (hp : rd.public_key = some pk)
    (h : ¬ (q = "" ∨ pk = "")) :
    register_agent rd client_id true attResult now s =
      (.registered rd.agent_id
          (registeredAgent rd client_id q pk attResult now).measurements,
        { agents := dictSet s.agents rd.agent_id
            (registeredAgent rd client_id q pk attResult now)
          client_agents := dictSet s.client_agents client_id
            (clientIndex s client_id ++ [rd.agent_id]) }) := by
  unfold register_agent
  rw [hq, hp]
  simp [h, clientIndex]

/-- Invariants of every reachable registry state: the agents dict has
unique keys, and every stored record's `agent_id` field matches its key. -/
def RegInv (s : RegistryState) : Prop :=
  NodupKeys s.agents
  ∧ (∀ aid a, dictGet s.agents aid = some a → a.agent_id = aid)

theorem get_agent_elim {s : RegistryState} {aid c : String} {a : Agent}
    (h : get_agent s aid c = some a) :
    dictGet s.agents aid = some a ∧ a.client_id = c := by
  unfold get_agent at h
  rcases hg : dictGet s.agents aid with _ | b
  · rw [hg] at h
    exact absurd h (by simp)
  · rw [hg] at h
    have h' : (if b.client_id = c then some b else none) = some a := h
    by_cases hc : b.client_id = c
    · rw [if_pos hc] at h'
      cases h'
      exact ⟨rfl, hc⟩
    · rw [if_neg hc] at h'
      exact absurd h' (by simp)

theorem regInv_step (s : RegistryState) (hs : RegInv s) (op : RegOp) :
    RegInv (regStep s op) := by
  obtain ⟨hnd, hmatch⟩ := hs
  cases op with
  | register rd c ok res now =>
    show RegInv (register_agent rd c ok res now s).2
    unfold register_agent
    rcases rd.quote with _ | q <;> rcases rd.public_key with _ | pk
    · exact ⟨hnd, hmatch⟩
    · exact ⟨hnd, hmatch⟩
    · exact ⟨hnd, hmatch⟩
    · by_cases hqe : q = "" ∨ pk = ""
      · simp only [hqe, if_true]
        exact ⟨hnd, hmatch⟩
      · simp only [hqe, if_false]
        cases ok
        · exact ⟨hnd, hmatch⟩
        · simp only [if_true]
          refine ⟨nodupKeys_dictSet hnd _ _, ?_⟩
          intro aid a ha
          rw [dictGet_dictSet] at ha
          by_cases he : aid = rd.agent_id
          · rw [if_pos he] at ha
            cases ha
            exact he.symm
          · rw [if_neg he] at ha
            exact hmatch aid a ha
  | heartbeat aid c now =>
    show RegInv (update_agent_heartbeat s aid c now).2
    unfold update_agent_heartbeat
    rcases hg : get_agent s aid c with _ | a
    · exact ⟨hnd, hmatch⟩
    · obtain ⟨hga, _⟩ := get_agent_elim hg
      refine ⟨nodupKeys_dictSet hnd _ _, ?_⟩
      intro aid2 a2 ha2
      rw [dictGet_dictSet] at ha2
      by_cases he : aid2 = aid
      · rw [if_pos he] at ha2
        cases ha2
        exact he ▸ hmatch aid a hga
      · rw [if_neg he] at ha2
        exact hmatch aid2 a2 ha2
  | remove aid c =>
    show RegInv (remove_agent s aid c).2
    unfold remove_agent
    rcases hg : get_agent s aid c with _ | a
    · exact ⟨hnd, hmatch⟩
    · refine ⟨nodupKeys_dictDel hnd _, ?_⟩
      intro aid2 a2 ha2
      by_cases he : aid2 = aid
      · subst he
        rw [dictGet_dictDel_self hnd] at ha2
        exact absurd ha2 (by simp)
      · rw [dictGet_dictDel_ne _ _ _ he] at ha2
        exact hmatch aid2 a2 ha2

theorem regInv_run (ops : List RegOp) : RegInv (regRun ops) := by
  have key : ∀ (l : List RegOp) (s : RegistryState), RegInv s →
      RegInv (l.foldl regStep s) := by
    intro l
    induction l with
    | nil => intro s hs; exact hs
    | cons op rest ih =>
      intro s hs
      exact ih (regStep s op) (regInv_step s hs op)
  refine key ops emptyRegistry ⟨?_, ?_⟩
  · simp [emptyRegistry, NodupKeys]
  · intro aid a ha
    simp [emptyRegistry, dictGet] at ha

/-- If no op in the trace is a successful registration of `A` under `C`,
then `A` never enters client `C`'s id list. -/
theorem not_mem_clientIndex_foldl (A C : String) :
    ∀ (l : List RegOp) (s : RegistryState),
      (∀ op ∈ l, successfulReg op A C = false) →
      A ∉ clientIndex s C →
      A ∉ clientIndex (l.foldl regStep s) C := by
  intro l
  induction l with
  | nil => intro s _ h; exact h
  | cons op rest ih =>
    intro s hl hs
    refine ih (regStep s op) (fun o ho => hl o (List.mem_cons_of_mem _ ho)) ?_
    have hop := hl op (List.mem_cons_self _ _)
    cases op with
    | register rd c ok res now =>
      show A ∉ clientIndex (register_agent rd c ok res now s).2 C
      rcases hq : rd.quote with _ | q
      · rw [register_agent_no_cred rd c ok res now s (Or.inl hq)]
        exact hs
      rcases hp : rd.public_key with _ | pk
      · rw [register_agent_no_cred rd c ok res now s (Or.inr hp)]
        exact hs
      by_cases hqe : q = "" ∨ pk = ""
      · rw [register_agent_empty_cred rd c ok res now s q pk hq hp hqe]
        exact hs
      cases ok with
      | false =>
        rw [register_agent_attfail rd c res now s q pk hq hp hqe]
        exact hs
      | true =>
        rw [register_agent_success rd c res now s q pk hq hp hqe]
        show A ∉ (dictGet (dictSet s.client_agents c
          (clientIndex s c ++ [rd.agent_id])) C).getD []
        rw [dictGet_dictSet]
        by_cases hc : C = c
        · subst hc
          rw [if_pos rfl]
          intro hmem
          rw [Option.getD_some] at hmem
          rcases List.mem_append.mp hmem with hmem | hmem
          · exact hs hmem
          · have hA : rd.agent_id = A := (List.mem_singleton.mp hmem).symm
            push_neg at hqe
            rw [successfulReg, hq, hp] at hop
            simp [hA, hqe.1, hqe.2] at hop
        · rw [if_neg hc]
          exact hs
    | heartbeat aid c now =>
      show A ∉ clientIndex (update_agent_heartbeat s aid c now).2 C
      unfold update_agent_heartbeat
      rcases get_agent s aid c with _ | a
      · exact hs
      · exact hs
    | remove aid c =>
      show A ∉ clientIndex (remove_agent s aid c).2 C
      unfold remove_agent
      rcases get_agent s aid c with _ | a
      · exact hs
      · unfold clientIndex at hs ⊢
        simp only
        rw [dictGet_dictSet]
        by_cases hc : C = c
        · rw [if_pos hc]
          intro hmem
          simp only [Option.getD_some] at hmem
          exact hs (hc ▸ List.mem_of_mem_erase hmem)
        · rw [if_neg hc]
          exact hs

/-- `A` entered a state's client-`C` list only via a successful
registration of `A` under `C` in the trace that built the state. -/
theorem mem_clientIndex_run {ops : List RegOp} {A C : String}
    (hno : ∀ op ∈ ops, successfulReg op A C = false) :
    A ∉ clientIndex (regRun ops) C := by
  refine not_mem_clientIndex_foldl A C ops emptyRegistry hno ?_
  simp [clientIndex, emptyRegistry, dictGet]

/-- **C8.** Client isolation: for distinct clients `C1 ≠ C2`, an agent `A`
currently registered under `C1` whose id was never successfully registered
under `C2` is invisible to `C2`: `get_agent A C2` is not-found and `C2`'s
enumeration contains no record with id `A`. -/
theorem claim_C8_client_isolation (ops : List RegOp) (A C1 C2 : String)
    (a : Agent) (hne : C1 ≠ C2)
    (hreg : get_agent (regRun ops) A C1 = some a)
    (hnoc2 : ∀ op ∈ ops, successfulReg op A C2 = false) :
    get_agent (regRun ops) A C2 = none
    ∧ ∀ b ∈ get_all_agents (regRun ops) C2, b.agent_id ≠ A := by
  obtain ⟨hga, hcl⟩ := get_agent_elim hreg
  constructor
  · unfold get_agent
    rw [hga]
    have hno : ¬ a.client_id = C2 := by
      rw [hcl]
      exact hne
    show (if a.client_id = C2 then some a else none) = none
    rw [if_neg hno]
  · intro b hb hbA
    rcases List.mem_filterMap.mp hb with ⟨aid, hmem, hget⟩
    have hkey : b.agent_id = aid := (regInv_run ops).2 aid b hget
    have haid : aid = A := by rw [← hkey, hbA]
    exact mem_clientIndex_run hnoc2 (haid ▸ hmem)

/-- A concrete registration body used in the registry witnesses. -/
def rdFin : RegistrationData :=
  ⟨"finance-1", "finance", ["roi_calculation"], "http://10.0.0.2:8081",
    "http://10.0.0.2:29344", some "q1", some "pk1"⟩

/-- Witness for C8: one successful registration of `finance-1` under
`acme`; lookups under `globex` return not-found / exclude it. -/
theorem claim_C8_client_isolation_witness :
    ("acme" : String) ≠ "globex"
    ∧ get_agent (regRun [.register rdFin "acme" true (.obj []) ⟨0, 0⟩])
        "finance-1" "acme" =
        some (registeredAgent rdFin "acme" "q1" "pk1" (.obj []) ⟨0, 0⟩)
    ∧ (∀ op ∈ ([.register rdFin "acme" true (.obj []) ⟨0, 0⟩] : List RegOp),
        successfulReg op "finance-1" "globex" = false)
    ∧ (get_agent (regRun [.register rdFin "acme" true (.obj []) ⟨0, 0⟩])
          "finance-1" "globex" = none
        ∧ ∀ b ∈ get_all_agents
            (regRun [.register rdFin "acme" true (.obj []) ⟨0, 0⟩]) "globex",
            b.agent_id ≠ "finance-1") :=
  ⟨by decide, by decide, by decide,
    claim_C8_client_isolation [.register rdFin "acme" true (.obj []) ⟨0, 0⟩]
      "finance-1" "acme" "globex"
      (registeredAgent rdFin "acme" "q1" "pk1" (.obj []) ⟨0, 0⟩)
      (by decide) (by decide) (by decide)⟩

/-! ### C9 — per-client uniqueness of the enumeration -/

/-- The property claim C9 asserts of the code: re-registration upserts, so
an agent id appears at most once in its client's enumeration. -/
def DuplicateFreeEnumeration : Prop :=
  ∀ (ops : List RegOp) (A C : String),
    ((get_all_agents (regRun ops) C).map Agent.agent_id).count A ≤ 1

/-- C9 fails on the code: registering `finance-1` under `acme` twice
upserts the record map but *appends* the id to `client_agents["acme"]`
again, so the enumeration lists the agent twice. -/
theorem claim_C9_counterexample : ¬ DuplicateFreeEnumeration := by
  intro h
  have h2 := h [.register rdFin "acme" true (.obj []) ⟨0, 0⟩,
    .register rdFin "acme" true (.obj []) ⟨1, 0⟩] "finance-1" "acme"
  exact absurd h2 (by decide)

/-- One registration changes the count of `A` in client `C`'s id list by
exactly one when it is a successful `(A, C)` registration, else by zero. -/
theorem count_clientIndex_register (A C : String) (rd : RegistrationData)
    (c : String) (ok : Bool) (res : Json) (now : JNum) (s : RegistryState) :
    (clientIndex (register_agent rd c ok res now s).2 C).count A =
      (clientIndex s C).count A
        + (if successfulReg (.register rd c ok res now) A C then 1 else 0) := by
  rcases hq : rd.quote with _ | q
  · rw [register_agent_no_cred rd c ok res now s (Or.inl hq)]
    simp [successfulReg, hq]
  rcases hp : rd.public_key with _ | pk
  · rw [register_agent_no_cred rd c ok res now s (Or.inr hp)]
    simp [successfulReg, hq, hp]
  by_cases hqe : q = "" ∨ pk = ""
  · rw [register_agent_empty_cred rd c ok res now s q pk hq hp hqe]
    rcases hqe with h | h <;> simp [successfulReg, hq, hp, h]
  cases ok with
  | false =>
    rw [register_agent_attfail rd c res now s q pk hq hp hqe]
    simp [successfulReg]
  | true =>
    rw [register_agent_success rd c res now s q pk hq hp hqe]
    push_neg at hqe
    show ((dictGet (dictSet s.client_agents c
        (clientIndex s c ++ [rd.agent_id])) C).getD []).count A = _
    rw [dictGet_dictSet]
    by_cases hc : C = c
    · subst hc
      rw [if_pos rfl, Option.getD_some, List.count_append]
      by_cases hA : rd.agent_id = A
      · simp [successfulReg, hq, hp, hA, hqe.1, hqe.2]
      · simp [successfulReg, hA, List.count_singleton]
    · rw [if_neg hc]
      have hcc : ¬ c = C := fun h => hc h.symm
      simp [successfulReg, hcc, clientIndex]

/-- Over register-only traces, the occurrences of `A` in client `C`'s id
list count exactly the successful `(A, C)` registrations. -/
theorem count_clientIndex_foldl (A C : String) :
    ∀ (l : List RegOp) (s : RegistryState),
      (∀ op ∈ l, isRegisterOp op = true) →
      (clientIndex (l.foldl regStep s) C).count A =
        (clientIndex s C).count A
          + (l.filter (fun op => successfulReg op A C)).length := by
  intro l
  induction l with
  | nil => intro s _; simp
  | cons op rest ih =>
    intro s hl
    have hop := hl op (List.mem_cons_self _ _)
    have hrest := fun o ho => hl o (List.mem_cons_of_mem _ ho)
    cases op with
    | heartbeat aid c now => exact absurd hop (by simp [isRegisterOp])
    | remove aid c => exact absurd hop (by simp [isRegisterOp])
    | register rd c ok res now =>
      rw [List.foldl_cons, ih (regStep s (.register rd c ok res now)) hrest]
      have hdelta := count_clientIndex_register A C rd c ok res now s
      rw [show regStep s (.register rd c ok res now) =
        (register_agent rd c ok res now s).2 from rfl, hdelta, List.filter_cons]
      by_cases hsucc : successfulReg (.register rd c ok res now) A C = true <;>
        simp [hsucc] <;> omega

/-- Over register-only traces, an id on some client list always resolves
in the global table (records are never deleted by registrations). -/
theorem isSome_of_mem_clientIndex_foldl (A C : String) :
    ∀ (l : List RegOp) (s : RegistryState),
      (∀ op ∈ l, isRegisterOp op = true) →
      (A ∈ clientIndex s C → (dictGet s.agents A).isSome) →
      A ∈ clientIndex (l.foldl regStep s) C →
      (dictGet (l.foldl regStep s).agents A).isSome := by
  intro l
  induction l with
  | nil => intro s _ h; exact h
  | cons op rest ih =>
    intro s hl hs
    refine ih (regStep s op) (fun o ho => hl o (List.mem_cons_of_mem _ ho)) ?_
    have hop := hl op (List.mem_cons_self _ _)
    cases op with
    | heartbeat aid c now => exact absurd hop (by simp [isRegisterOp])
    | remove aid c => exact absurd hop (by simp [isRegisterOp])
    | register rd c ok res now =>
      show A ∈ clientIndex (register_agent rd c ok res now s).2 C →
        (dictGet (register_agent rd c ok res now s).2.agents A).isSome
      rcases hq : rd.quote with _ | q
      · rw [register_agent_no_cred rd c ok res now s (Or.inl hq)]
        exact hs
      rcases hp : rd.public_key with _ | pk
      · rw [register_agent_no_cred rd c ok res now s (Or.inr hp)]
        exact hs
      by_cases hqe : q = "" ∨ pk = ""
      · rw [register_agent_empty_cred rd c ok res now s q pk hq hp hqe]
        exact hs
      cases ok with
      | false =>
        rw [register_agent_attfail rd c res now s q pk hq hp hqe]
        exact hs
      | true =>
        rw [register_agent_success rd c res now s q pk hq hp hqe]
        intro hmem
        show (dictGet (dictSet s.agents rd.agent_id
          (registeredAgent rd c q pk res now)) A).isSome
        rw [dictGet_dictSet]
        by_cases hA : A = rd.agent_id
        · rw [if_pos hA]
          rfl
        · rw [if_neg hA]
          refine hs ?_
          have hmem' : A ∈ (dictGet (dictSet s.client_agents c
              (clientIndex s c ++ [rd.agent_id])) C).getD [] := hmem
          rw [dictGet_dictSet] at hmem'
          by_cases hc : C = c
          · subst hc
            rw [if_pos rfl, Option.getD_some] at hmem'
            rcases List.mem_append.mp hmem' with h | h
            · exact h
            · exact absurd (List.mem_singleton.mp h) hA
          · rw [if_neg hc] at hmem'
            exact hmem'

/-- Counting an agent id among the records resolved from an id list: every
occurrence of the id contributes exactly one record when the id resolves,
and other ids never contribute a record with that id (keys match). -/
theorem count_ids_filterMap (agents : List (String × Agent))
    (idx : List String) (A : String)
    (hmatch : ∀ aid a, dictGet agents aid = some a → a.agent_id = aid) :
    ((idx.filterMap (fun aid => dictGet agents aid)).map
        Agent.agent_id).count A =
      if (dictGet agents A).isSome then idx.count A else 0 := by
  induction idx with
  | nil => simp
  | cons aid rest ih =>
    rw [List.filterMap_cons]
    rcases hg : dictGet agents aid with _ | a
    · rw [ih]
      by_cases hA : aid = A
      · subst hA
        rw [hg]
        simp [List.count_cons]
      · by_cases hsome : (dictGet agents A).isSome <;>
          simp [hsome, List.count_cons, hA]
    · have hid : a.agent_id = aid := hmatch aid a hg
      rw [List.map_cons, List.count_cons, ih, hid]
      by_cases hA : aid = A
      · subst hA
        rw [hg]
        simp [List.count_cons]
      · by_cases hsome : (dictGet agents A).isSome <;>
          simp [hsome, List.count_cons, hA]

/-- **C9 (amended).** Re-registration of an agent id for the same client
*upserts* the stored record — the agents table keeps unique keys — but
`register_agent` unconditionally appends the id to the client's index, so
over register-only histories the client's enumeration lists the (single,
latest) record once per successful registration: the count of `A` among
`get_all_agents(C)` equals the number of successful `(A, C)` registrations,
exceeding 1 as soon as the agent re-registers. -/
theorem claim_C9_upsert_but_duplicated_enumeration (ops : List RegOp)
    (A C : String) (hro : ∀ op ∈ ops, isRegisterOp op = true) :
    NodupKeys (regRun ops).agents
    ∧ ((get_all_agents (regRun ops) C).map Agent.agent_id).count A =
        (ops.filter (fun op => successfulReg op A C)).length := by
  refine ⟨(regInv_run ops).1, ?_⟩
  have hcount : (clientIndex (regRun ops) C).count A =
      0 + (ops.filter (fun op => successfulReg op A C)).length := by
    have hbase : (clientIndex emptyRegistry C).count A = 0 := by
      simp [clientIndex, emptyRegistry, dictGet]
    have h0 := count_clientIndex_foldl A C ops emptyRegistry hro
    rw [hbase] at h0
    exact h0
  show (((clientIndex (regRun ops) C).filterMap
      (fun aid => dictGet (regRun ops).agents aid)).map
        Agent.agent_id).count A = _
  rw [count_ids_filterMap _ _ _ (regInv_run ops).2]
  by_cases hsome : (dictGet (regRun ops).agents A).isSome
  · rw [if_pos hsome]
    omega
  · rw [if_neg hsome]
    by_cases hmem : A ∈ clientIndex (regRun ops) C
    · exact absurd (isSome_of_mem_clientIndex_foldl A C ops emptyRegistry hro
        (by simp [clientIndex, emptyRegistry, dictGet]) hmem) hsome
    · have hz : (clientIndex (regRun ops) C).count A = 0 :=
        List.count_eq_zero.mpr hmem
      omega

/-- Witness for C9 (amended): two successful registrations of `finance-1`
under `acme` give a unique-keyed record table but an enumeration counting
the id twice. -/
theorem claim_C9_upsert_but_duplicated_enumeration_witness :
    (∀ op ∈ ([.register rdFin "acme" true (.obj []) ⟨0, 0⟩,
        .register rdFin "acme" true (.obj []) ⟨1, 0⟩] : List RegOp),
      isRegisterOp op = true)
    ∧ (NodupKeys (regRun [.register rdFin "acme" true (.obj []) ⟨0, 0⟩,
          .register rdFin "acme" true (.obj []) ⟨1, 0⟩]).agents
      ∧ ((get_all_agents (regRun [.register rdFin "acme" true (.obj []) ⟨0, 0⟩,
            .register rdFin "acme" true (.obj []) ⟨1, 0⟩]) "acme").map
              Agent.agent_id).count "finance-1" =
          (([.register rdFin "acme" true (.obj []) ⟨0, 0⟩,
            .register rdFin "acme" true (.obj []) ⟨1, 0⟩] : List RegOp).filter
              (fun op => successfulReg op "finance-1" "acme")).length) :=
  ⟨by decide,
    claim_C9_upsert_but_duplicated_enumeration
      [.register rdFin "acme" true (.obj []) ⟨0, 0⟩,
        .register rdFin "acme" true (.obj []) ⟨1, 0⟩]
      "finance-1" "acme" (by decide)⟩

/-! ### C10 — the registry is keyed globally by agent id -/

/-- **C10.** Registry storage is keyed globally by agent id alone: when
agent `A`, currently owned by client `C1` (and listed in `C1`'s index), is
successfully re-registered under a different client `C2`, the single
stored record is replaced.  Afterwards `get_agent(A, C1)` is not-found,
while `C1`'s per-client index still lists `A`, so `get_all_agents(C1)` —
and `get_agents_by_capability` under `C1`, for each capability of the new
record — return the verified record now owned by `C2`. -/
theorem claim_C10_global_keying (s : RegistryState) (A C1 C2 : String)
    (a0 : Agent) (rd : RegistrationData) (attResult : Json) (now : JNum)
    (q pk : String)
    (hne : C1 ≠ C2)
    (hcur : get_agent s A C1 = some a0)
    (hidx : A ∈ clientIndex s C1)
    (hrdid : rd.agent_id = A)
    (hq : rd.quote = some q) (hp : rd.public_key = some pk)
    (hnq : ¬ (q = "" ∨ pk = "")) :
    get_agent (register_agent rd C2 true attResult now s).2 A C1 = none
    ∧ get_agent (register_agent rd C2 true attResult now s).2 A C2 =
        some (registeredAgent rd C2 q pk attResult now)
    ∧ (registeredAgent rd C2 q pk attResult now).client_id = C2
    ∧ (registeredAgent rd C2 q pk attResult now).status = "verified"
    ∧ A ∈ clientIndex (register_agent rd C2 true attResult now s).2 C1
    ∧ registeredAgent rd C2 q pk attResult now ∈
        get_all_agents (register_agent rd C2 true attResult now s).2 C1
    ∧ ∀ cap ∈ (registeredAgent rd C2 q pk attResult now).capabilities,
        registeredAgent rd C2 q pk attResult now ∈
          get_agents_by_capability
            (register_agent rd C2 true attResult now s).2 cap C1 := by
  rw [register_agent_success rd C2 attResult now s q pk hq hp hnq]
  have hget : dictGet (dictSet s.agents rd.agent_id
      (registeredAgent rd C2 q pk attResult now)) A =
      some (registeredAgent rd C2 q pk attResult now) := by
    rw [dictGet_dictSet, if_pos hrdid.symm]
  have hidx1 : A ∈ (dictGet (dictSet s.client_agents C2
      (clientIndex s C2 ++ [rd.agent_id])) C1).getD [] := by
    rw [dictGet_dictSet, if_neg hne]
    exact hidx
  refine ⟨?_, ?_, rfl, rfl, hidx1, ?_, ?_⟩
  · show (match dictGet (dictSet s.agents rd.agent_id
        (registeredAgent rd C2 q pk attResult now)) A with
      | some a => if a.client_id = C1 then some a else none
      | none => none) = none
    rw [hget]
    show (if (registeredAgent rd C2 q pk attResult now).client_id = C1
      then some (registeredAgent rd C2 q pk attResult now) else none) = none
    rw [if_neg (fun h => hne (h.symm))]
  · show (match dictGet (dictSet s.agents rd.agent_id
        (registeredAgent rd C2 q pk attResult now)) A with
      | some a => if a.client_id = C2 then some a else none
      | none => none) = some (registeredAgent rd C2 q pk attResult now)
    rw [hget]
    have hc0 : (registeredAgent rd C2 q pk attResult now).client_id = C2 := rfl
    show (if (registeredAgent rd C2 q pk attResult now).client_id = C2
      then some (registeredAgent rd C2 q pk attResult now) else none) =
      some (registeredAgent rd C2 q pk attResult now)
    rw [if_pos hc0]
  · exact List.mem_filterMap.mpr ⟨A, hidx1, hget⟩
  · intro cap hcap
    refine List.mem_filterMap.mpr ⟨A, hidx1, ?_⟩
    rw [hget]
    show (if cap ∈ (registeredAgent rd C2 q pk attResult now).capabilities
        ∧ (registeredAgent rd C2 q pk attResult now).status = "verified"
      then some (registeredAgent rd C2 q pk attResult now) else none) =
      some (registeredAgent rd C2 q pk attResult now)
    rw [if_pos ⟨hcap, rfl⟩]

/-- Witness for C10: `finance-1` registered under `acme`, then successfully
re-registered under `globex`. -/
theorem claim_C10_global_keying_witness :
    ("acme" : String) ≠ "globex"
    ∧ get_agent (regRun [.register rdFin "acme" true (.obj []) ⟨0, 0⟩])
        "finance-1" "acme" =
        some (registeredAgent rdFin "acme" "q1" "pk1" (.obj []) ⟨0, 0⟩)
    ∧ "finance-1" ∈ clientIndex
        (regRun [.register rdFin "acme" true (.obj []) ⟨0, 0⟩]) "acme"
    ∧ rdFin.agent_id = "finance-1"
    ∧ rdFin.quote = some "q1"
    ∧ rdFin.public_key = some "pk1"
    ∧ ¬ (("q1" : String) = "" ∨ ("pk1" : String) = "")
    ∧ (get_agent (register_agent rdFin "globex" true (.obj []) ⟨5, 0⟩
          (regRun [.register rdFin "acme" true (.obj []) ⟨0, 0⟩])).2
          "finance-1" "acme" = none
      ∧ get_agent (register_agent rdFin "globex" true (.obj []) ⟨5, 0⟩
          (regRun [.register rdFin "acme" true (.obj []) ⟨0, 0⟩])).2
          "finance-1" "globex" =
          some (registeredAgent rdFin "globex" "q1" "pk1" (.obj []) ⟨5, 0⟩)
      ∧ (registeredAgent rdFin "globex" "q1" "pk1" (.obj []) ⟨5, 0⟩).client_id
          = "globex"
      ∧ (registeredAgent rdFin "globex" "q1" "pk1" (.obj []) ⟨5, 0⟩).status
          = "verified"
      ∧ "finance-1" ∈ clientIndex (register_agent rdFin "globex" true
          (.obj []) ⟨5, 0⟩
          (regRun [.register rdFin "acme" true (.obj []) ⟨0, 0⟩])).2 "acme"
      ∧ registeredAgent rdFin "globex" "q1" "pk1" (.obj []) ⟨5, 0⟩ ∈
          get_all_agents (register_agent rdFin "globex" true (.obj []) ⟨5, 0⟩
            (regRun [.register rdFin "acme" true (.obj []) ⟨0, 0⟩])).2 "acme"
      ∧ ∀ cap ∈ (registeredAgent rdFin "globex" "q1" "pk1" (.obj [])
            ⟨5, 0⟩).capabilities,
          registeredAgent rdFin "globex" "q1" "pk1" (.obj []) ⟨5, 0⟩ ∈
            get_agents_by_capability (register_agent rdFin "globex" true
              (.obj []) ⟨5, 0⟩
              (regRun [.register rdFin "acme" true (.obj []) ⟨0, 0⟩])).2
              cap "acme") :=
  ⟨by decide, by decide, by decide, by decide, by decide, by decide, by decide,
    claim_C10_global_keying
      (regRun [.register rdFin "acme" true (.obj []) ⟨0, 0⟩])
      "finance-1" "acme" "globex"
      (registeredAgent rdFin "acme" "q1" "pk1" (.obj []) ⟨0, 0⟩)
      rdFin (.obj []) ⟨5, 0⟩ "q1" "pk1"
      (by decide) (by decide) (by decide) (by decide) (by decide) (by decide)
      (by decide)⟩

/-! ## LLM manager routing and synthesis
(`src/hub/services/unified_llm_manager.py`)

`route_to_agent` dispatches on `development_mode or mock_llm` between
`_mock_route_to_agent` and `_real_route_to_agent`, but the "real" branch
builds a prompt and then calls the mock, so both reduce to the keyword
router below.  The `random.randint(1, 5)` / `random.uniform(0.8, 0.95)`
draws are nondeterministic inputs. -/

/-- ASCII lower-casing of one character (`str.lower()`; the router's
keyword queries are ASCII). -/
def charLower (c : Char) : Char :=
  if 'A' ≤ c ∧ c ≤ 'Z' then Char.ofNat (c.toNat + 32) else c

/-- Python `query.lower()`. -/
def strToLower (s : String) : String := ⟨s.data.map charLower⟩

/-- `pat.isPrefixOf txt` over character lists. -/
def listStartsWith : List Char → List Char → Bool
  | [], _ => true
  | _ :: _, [] => false
  | a :: as, b :: bs => a == b && listStartsWith as bs

/-- Substring search over character lists (Python `pat in txt`). -/
def listContainsSub (pat : List Char) : List Char → Bool
  | [] => listStartsWith pat []
  | c :: rest => listStartsWith pat (c :: rest) || listContainsSub pat rest

/-- Python `pat in txt` on strings. -/
def strContainsSub (txt pat : String) : Bool :=
  listContainsSub pat.data txt.data

/-- `any(word in query_lower for word in words)`. -/
def anyKeyword (ql : String) (ws : List String) : Bool :=
  ws.any (fun w => strContainsSub ql w)

/-- The routing decision dictionary `_mock_route_to_agent` returns. -/
structure RoutingDecision where
  best_agent : String
  reasoning : String
  priority : String
  estimated_time : Nat
  confidence : JNum
deriving DecidableEq

/-- `UnifiedLLMManager._mock_route_to_agent` — keyword routing with a
fallback to the first available agent; `rEst`/`rConf` are the two random
draws. -/
def mockRouteToAgent (rEst : Nat) (rConf : JNum) (query : String)
    (available : List Agent) : RoutingDecision :=
  let ql := strToLower query
  let d0 : RoutingDecision :=
    if anyKeyword ql ["roi", "budget", "financial", "revenue", "cost"] then
      ⟨"finance", "Query contains financial terms requiring specialized analysis",
        "high", rEst, rConf⟩
    else if anyKeyword ql ["campaign", "marketing", "customer", "brand"] then
      ⟨"marketing", "Query relates to marketing activities and campaigns",
        "medium", rEst, rConf⟩
    else if anyKeyword ql ["sales", "pipeline", "leads", "deals"] then
      ⟨"sales", "Query involves sales data and pipeline analysis",
        "medium", rEst, rConf⟩
    else
      ⟨((available.head?.map (fun a => a.agent_type)).getD "finance"),
        "General business query routed to available specialist",
        "low", rEst, rConf⟩
  let found := available.any (fun a => a.agent_type == d0.best_agent)
  if !found && !available.isEmpty then
    match available with
    | a :: _ =>
      { d0 with
          best_agent := a.agent_type
          reasoning := "Preferred agent not available, routing to "
            ++ a.agent_type }
    | [] => d0
  else d0

/-- A recorded response inside an active request (`agent_id`,
`agent_type`, `result` are `response_data.get(...)`, absent → `None`). -/
structure RespRecord where
  agent_id : Option String
  agent_type : Option String
  result : Option Json
  received_at : JNum
deriving DecidableEq

/-- The response body posted to `process_collaboration_response`. -/
structure RespData where
  agent_id : Option String
  agent_type : Option String
  result : Option Json
deriving DecidableEq

/-- `UnifiedLLMManager._mock_synthesize_results` (both branches of
`synthesize_results` reduce to it).  A response record's keys are exactly
`agent_id, agent_type, result, received_at`, so `'summary' in result` and
`'recommendations' in result` are false for every record — the
accumulators stay empty, the joined summary text is empty, and
`r.get('confidence_score', 0.8)` always defaults, making
`round(sum(...)/len(...), 2) = 0.8`. -/
def synthesizeResults (results : List RespRecord) : Json :=
  if results.isEmpty then
    .obj [("executive_summary", .str "No results to synthesize"),
          ("recommendations", .arr []),
          ("confidence_score", .num ⟨0, 0⟩)]
  else
    .obj [("executive_summary", .str "Multi-agent analysis completed. "),
          ("recommendations", .arr []),
          ("confidence_score", .num ⟨8, 1⟩),
          ("areas_of_agreement",
            .arr [.str "Data accuracy confirmed", .str "Trends identified"]),
          ("areas_of_disagreement", .arr []),
          ("synthesis_timestamp", .str "2024-01-01T00:00:00Z")]

/-! ## VM communication (`src/hub/services/vm_communication_manager.py`) -/

/-- What the network did for one `aiohttp` POST: a 200 with a JSON body, a
non-200 status, a timeout, or any other raised exception. -/
inductive NetOutcome where
  | ok (body : Json)
  | httpError (code : Nat) (text : String)
  | timeout
  | exn (msg : String)

/-- `VMCommunicationManager.send_to_agent`: every failure is caught and
returned as an `{"error": ...}` dictionary — the call never raises. -/
def sendToAgent (endpoints : List String) (net : String → Json → NetOutcome)
    (agent_type : String) (data : Json) : Json :=
  if agent_type ∉ endpoints then
    .obj [("error", .str ("Agent VM " ++ agent_type ++ " not configured"))]
  else
    match net agent_type data with
    | .ok body => body
    | .httpError code text =>
      .obj [("error", .str ("Agent VM returned " ++ toString code)),
            ("details", .str text)]
    | .timeout =>
      .obj [("error", .str ("Timeout communicating with " ++ agent_type
        ++ " VM"))]
    | .exn m =>
      .obj [("error", .str ("Communication failed: " ++ m))]

/-! ## Orchestration engine
(`src/hub/services/orchestration_engine.py`) -/

/-- The fields of `request_data` that `route_request` reads (and stores
wholesale for a later escalation re-route). -/
structure RequestData where
  query : String
  requesting_agent : Option String
  context : Json
  data_requirements : List String
deriving DecidableEq

/-- One entry of `self.active_requests`.  The `responses` key is created
on first append; an absent key behaves as the empty list. -/
structure ActiveEntry where
  request_data : RequestData
  target_agent : Agent
  client_id : String
  started_at : JNum
  responses : List RespRecord
deriving DecidableEq

/-- The engine's collaborators: the registry tables, the configured spoke
endpoints with the network's behaviour, and the router's random draws. -/
structure OrchEnv where
  registry : RegistryState
  endpoints : List String
  net : String → Json → NetOutcome
  rEst : Nat
  rConf : JNum

/-- `OrchestrationEngine._prepare_data_package` (never raises; placeholder
numeric defaults when the context lacks fields). -/
def prepareDataPackage (rd : RequestData) (client_id : String)
    (now : JNum) : Json :=
  let base := [("client_id", Json.str client_id),
               ("request_context", rd.context),
               ("data_types", Json.arr (rd.data_requirements.map Json.str)),
               ("documents", Json.arr [])]
  let base := if "financial_data" ∈ rd.data_requirements then
      base ++ [("financial_data", Json.obj
        [("revenue", (rd.context.get "revenue").getD (.num ⟨1000000, 0⟩)),
         ("expenses", (rd.context.get "expenses").getD (.num ⟨800000, 0⟩)),
         ("period", (rd.context.get "period").getD (.str "Q4 2024"))])]
    else base
  let base := if "marketing_data" ∈ rd.data_requirements then
      base ++ [("marketing_data", Json.obj
        [("campaign_name",
            (rd.context.get "campaign_name").getD (.str "Holiday Campaign")),
         ("spend", (rd.context.get "marketing_spend").getD (.num ⟨50000, 0⟩)),
         ("impressions",
            (rd.context.get "impressions").getD (.num ⟨1000000, 0⟩))])]
    else base
  Json.obj [("encrypted", .bool false), ("data", Json.obj base),
            ("prepared_at", .num now)]

mutual
/-- A structural size of a JSON tree (see `jsonSize`). -/
def Json.tsize : Json → Nat
  | .null => 1
  | .bool _ => 1
  | .num _ => 1
  | .str s => 1 + s.length
  | .arr xs => 1 + tsizeList xs
  | .obj fs => 1 + tsizeFields fs
def tsizeList : List Json → Nat
  | [] => 0
  | x :: xs => x.tsize + tsizeList xs
def tsizeFields : List (String × Json) → Nat
  | [] => 0
  | (k, v) :: fs => k.length + v.tsize + tsizeFields fs
end

/-- `len(json.dumps(data_package))`, abstracted as a structural size of the
tree (no claim depends on the exact byte count). -/
def jsonSize (j : Json) : Nat := j.tsize

/-- The agents `route_request` considers: the client's enumeration minus
the requesting agent and the non-verified. -/
def availableAgents (env : OrchEnv) (rd : RequestData)
    (client_id : String) : List Agent :=
  (get_all_agents env.registry client_id).filter
    (fun a =>
      (match rd.requesting_agent with
       | some r => a.agent_id ≠ r
       | none => true)
      && a.status == "verified")

/-- Steps 3–4 of `route_request`: the router's pick resolved to a concrete
record, falling back to the first available agent (mutating the decision's
reasoning).  `none` exactly when no agent is available. -/
def routeTarget (env : OrchEnv) (rd : RequestData) (client_id : String) :
    Option (Agent × String) :=
  match havail : availableAgents env rd client_id with
  | [] => none
  | a0 :: _ =>
    let decision := mockRouteToAgent env.rEst env.rConf rd.query
      (availableAgents env rd client_id)
    match (availableAgents env rd client_id).find?
        (fun a => a.agent_type == decision.best_agent) with
    | some t => some (t, decision.reasoning)
    | none => some (a0, "Primary agent not found, using fallback")

/-- The dictionary dispatched to the chosen agent. -/
def dispatchData (rd : RequestData) (routing_id : String)
    (data_package : Json) (priority : String) : Json :=
  .obj [("routing_id", .str routing_id),
        ("query", .str rd.query),
        ("context", rd.context),
        ("data_package", data_package),
        ("requesting_agent",
          match rd.requesting_agent with
          | some r => .str r
          | none => .null),
        ("priority", .str priority)]

/-- `OrchestrationEngine.route_request`.  `uid` is `uuid4().hex[:8]`.  The
active-request entry is stored *before* the dispatch; `send_to_agent`
never raises, so its failures end up inside `collaboration_result` and the
entry stays. -/
def routeRequest (env : OrchEnv) (rd : RequestData) (client_id : String)
    (uid : String) (now : JNum) (st : List (String × ActiveEntry)) :
    Json × List (String × ActiveEntry) :=
  match routeTarget env rd client_id with
  | none =>
    (.obj [("error", .str "No verified agents available for collaboration"),
           ("available_agents", .num ⟨0, 0⟩)], st)
  | some (target, reasoning) =>
    let decision := mockRouteToAgent env.rEst env.rConf rd.query
      (availableAgents env rd client_id)
    let routing_id := "route_" ++ uid
    let data_package := prepareDataPackage rd client_id now
    let st1 := dictSet st routing_id ⟨rd, target, client_id, now, []⟩
    let collaboration_result := sendToAgent env.endpoints env.net
      target.agent_type
      (dispatchData rd routing_id data_package decision.priority)
    (.obj [("routing_id", .str routing_id),
           ("target_agent", .str target.agent_id),
           ("agent_type", .str target.agent_type),
           ("reasoning", .str reasoning),
           ("estimated_time_minutes", .num ⟨(decision.estimated_time : Int), 0⟩),
           ("data_package", .obj [("size", .num ⟨(jsonSize data_package : Int), 0⟩)]),
           ("routed_at", .num now),
           ("collaboration_result", collaboration_result)], st1)

/-- The confidence extraction of `_needs_additional_collaboration`:
`result = response_data.get("result", {})` then
`result.get("confidence_score", 1.0)` compared with `0.7`.  `none` models
the raising paths (`result` present but not a dict → `AttributeError`; a
non-numeric, non-bool score → `TypeError` on `<`), which the enclosing
`except` of `process_collaboration_response` turns into an error return —
after the response has already been appended.  A bool score is fine
(`True < 0.7` is valid Python). -/
def confidenceOf (result : Option Json) : Option JNum :=
  match result with
  | none => some ⟨1, 0⟩
  | some (.obj fs) =>
    match fs.lookup "confidence_score" with
    | none => some ⟨1, 0⟩
    | some (.num q) => some q
    | some (.bool b) => some (if b then ⟨1, 0⟩ else ⟨0, 0⟩)
    | some _ => none
  | some _ => none

/-- `OrchestrationEngine._needs_additional_collaboration`, with the
response list already containing the just-appended response: at most one
additional collaboration per *routing id* (`len(responses) >= 2` stops),
escalate when `confidence_score < 0.7`. -/
def needsAdditionalCollaboration (entry : ActiveEntry) (resp : RespData) :
    Option Bool :=
  match confidenceOf resp.result with
  | none => none
  | some conf =>
    if entry.responses.length ≥ 2 then some false
    else some (conf.blt ⟨7, 1⟩)

/-- `OrchestrationEngine._determine_next_agent`: the first of the client's
agents whose id has not responded yet (`None` ids count as responders). -/
def determineNextAgent (reg : RegistryState) (entry : ActiveEntry) :
    Option Agent :=
  let responded := entry.responses.map (fun r => r.agent_id)
  let available := get_all_agents reg entry.client_id
  (available.filter (fun a => !(responded.contains (some a.agent_id)))).head?

/-- A response record as it appears in the returned `responses` list. -/
def respRecordToJson (r : RespRecord) : Json :=
  .obj [("agent_id",
          match r.agent_id with
          | some a => .str a
          | none => .null),
        ("agent_type",
          match r.agent_type with
          | some a => .str a
          | none => .null),
        ("result", r.result.getD .null),
        ("received_at", .num r.received_at)]

/-- The finalize step of `process_collaboration_response`: synthesize over
all collected responses, delete the entry, return the completed result. -/
def finalizeResponse (routing_id : String) (entry1 : ActiveEntry)
    (now : JNum) (st1 : List (String × ActiveEntry)) :
    Json × List (String × ActiveEntry) :=
  (.obj [("routing_id", .str routing_id),
         ("status", .str "completed"),
         ("synthesis", synthesizeResults entry1.responses),
         ("responses", .arr (entry1.responses.map respRecordToJson)),
         ("completed_at", .num now)],
    dictDel st1 routing_id)

/-- The in-place mutation `active_request["responses"].append(...)`. -/
def appendResp (entry : ActiveEntry) (resp : RespData) (now : JNum) :
    ActiveEntry :=
  { entry with responses := entry.responses ++
      [⟨resp.agent_id, resp.agent_type, resp.result, now⟩] }

/-- `OrchestrationEngine.process_collaboration_response`.  The response is
appended (a mutation of the stored dict) before the escalation decision;
an exception in the decision is caught and returned as an error, with the
append retained; escalation calls `route_request` afresh — with a new
routing id `uid` — and returns, leaving this entry alive. -/
def processCollaborationResponse (env : OrchEnv) (routing_id : String)
    (resp : RespData) (uid : String) (now : JNum)
    (st : List (String × ActiveEntry)) :
    Json × List (String × ActiveEntry) :=
  match dictGet st routing_id with
  | none => (.obj [("error", .str "Unknown routing ID")], st)
  | some entry =>
    let entry1 := appendResp entry resp now
    let st1 := dictSet st routing_id entry1
    match needsAdditionalCollaboration entry1 resp with
    | none =>
      -- the confidence extraction raised; the `except` returns
      -- `{"error": str(e)}` (exception text abstracted)
      (.obj [("error", .str "unsupported operand type")], st1)
    | some true =>
      match determineNextAgent env.registry entry1 with
      | some _ =>
        routeRequest env entry1.request_data entry1.client_id uid now st1
      | none => finalizeResponse routing_id entry1 now st1
    | some false => finalizeResponse routing_id entry1 now st1

/-- One engine call: a client route request or a peer response post.  Each
op carries its own fresh-uuid draw and clock reading. -/
inductive OrchOp where
  | route (rd : RequestData) (client_id : String) (uid : String) (now : JNum)
  | respond (routing_id : String) (resp : RespData) (uid : String) (now : JNum)

/-- Apply one engine call (dropping the returned dictionary). -/
def orchStep (env : OrchEnv) (st : List (String × ActiveEntry)) :
    OrchOp → List (String × ActiveEntry)
  | .route rd c uid now => (routeRequest env rd c uid now st).2
  | .respond rid resp uid now =>
    (processCollaborationResponse env rid resp uid now st).2

/-- The active-requests table after a call trace, from a fresh engine. -/
def orchRun (env : OrchEnv) (ops : List OrchOp) :
    List (String × ActiveEntry) :=
  ops.foldl (orchStep env) []

/-- A response body is well-formed when its `result` is a dictionary whose
`confidence_score`, if present, is numeric or boolean — the shape the
Domain Analyzer interface produces; such posts never hit the exception
path of the escalation decision. -/
def respWF (resp : RespData) : Bool :=
  (confidenceOf resp.result).isSome

/-- Trace well-formedness: every posted response is well-formed. -/
def opWF : OrchOp → Bool
  | .route _ _ _ _ => true
  | .respond _ resp _ _ => respWF resp

/-! ### Structural lemmas about the engine -/

/-- `process_collaboration_response` on an unknown routing id: the error
return, state untouched. -/
theorem process_eq_notfound (env : OrchEnv) (rid : String) (resp : RespData)
    (uid : String) (now : JNum) (st : List (String × ActiveEntry))
    (hg : dictGet st rid = none) :
    processCollaborationResponse env rid resp uid now st =
      (.obj [("error", .str "Unknown routing ID")], st) := by
  unfold processCollaborationResponse
  rw [hg]

/-- `process_collaboration_response` on a live entry, with the append and
branch structure made explicit. -/
theorem process_eq_found (env : OrchEnv) (rid : String) (resp : RespData)
    (uid : String) (now : JNum) (st : List (String × ActiveEntry))
    (entry : ActiveEntry) (hg : dictGet st rid = some entry) :
    processCollaborationResponse env rid resp uid now st =
      (match needsAdditionalCollaboration (appendResp entry resp now) resp with
       | none =>
         (.obj [("error", .str "unsupported operand type")],
           dictSet st rid (appendResp entry resp now))
       | some true =>
         match determineNextAgent env.registry (appendResp entry resp now) with
         | some _ =>
           routeRequest env entry.request_data entry.client_id uid now
             (dictSet st rid (appendResp entry resp now))
         | none =>
           finalizeResponse rid (appendResp entry resp now) now
             (dictSet st rid (appendResp entry resp now))
       | some false =>
         finalizeResponse rid (appendResp entry resp now) now
           (dictSet st rid (appendResp entry resp now))) := by
  unfold processCollaborationResponse
  rw [hg]
  rfl

/-- No dictionary `route_request` returns carries a `status` key. -/
theorem routeRequest_get_status (env : OrchEnv) (rd : RequestData)
    (client_id uid : String) (now : JNum)
    (st : List (String × ActiveEntry)) :
    (routeRequest env rd client_id uid now st).1.get "status" = none := by
  unfold routeRequest
  rcases h : routeTarget env rd client_id with _ | ⟨t, r⟩ <;> rfl

/-- Every entry in the table holds at most one response (each post either
finalizes — deleting the entry — or escalates with a single response
kept). -/
def SmallEntries (st : List (String × ActiveEntry)) : Prop :=
  ∀ rid entry, dictGet st rid = some entry → entry.responses.length ≤ 1

/-- Invariants of every reachable active-requests table under well-formed
responses. -/
def OrchInv (st : List (String × ActiveEntry)) : Prop :=
  NodupKeys st ∧ SmallEntries st

theorem orchInv_route (env : OrchEnv) (rd : RequestData)
    (client_id uid : String) (now : JNum)
    (st : List (String × ActiveEntry)) (h : OrchInv st) :
    OrchInv (routeRequest env rd client_id uid now st).2 := by
  unfold routeRequest
  rcases ht : routeTarget env rd client_id with _ | ⟨t, r⟩
  · exact h
  · refine ⟨nodupKeys_dictSet h.1 _ _, ?_⟩
    intro rid2 entry2 hg
    show entry2.responses.length ≤ 1
    rw [show dictGet (dictSet st ("route_" ++ uid) ⟨rd, t, client_id, now, []⟩)
        rid2 = if rid2 = ("route_" ++ uid)
          then some ⟨rd, t, client_id, now, []⟩
          else dictGet st rid2 from dictGet_dictSet _ _ _ _] at hg
    by_cases he : rid2 = "route_" ++ uid
    · rw [if_pos he] at hg
      cases hg
      simp
    · rw [if_neg he] at hg
      exact h.2 rid2 entry2 hg

theorem orchInv_finalize (rid : String) (entry1 : ActiveEntry) (now : JNum)
    (st1 : List (String × ActiveEntry)) (hnd : NodupKeys st1)
    (hsmall : ∀ rid2 entry2, rid2 ≠ rid → dictGet st1 rid2 = some entry2 →
      entry2.responses.length ≤ 1) :
    OrchInv (finalizeResponse rid entry1 now st1).2 := by
  refine ⟨nodupKeys_dictDel hnd _, ?_⟩
  intro rid2 entry2 hg
  rw [show (finalizeResponse rid entry1 now st1).2 = dictDel st1 rid
    from rfl] at hg
  show entry2.responses.length ≤ 1
  by_cases he : rid2 = rid
  · subst he
    rw [dictGet_dictDel_self hnd] at hg
    cases hg
  · rw [dictGet_dictDel_ne _ _ _ he] at hg
    exact hsmall rid2 entry2 he hg

theorem orchInv_respond (env : OrchEnv) (rid : String) (resp : RespData)
    (uid : String) (now : JNum) (st : List (String × ActiveEntry))
    (hWF : respWF resp = true) (h : OrchInv st) :
    OrchInv (processCollaborationResponse env rid resp uid now st).2 := by
  rcases hg : dictGet st rid with _ | entry
  · rw [process_eq_notfound env rid resp uid now st hg]
    exact h
  · rw [process_eq_found env rid resp uid now st entry hg]
    have hlen : entry.responses.length ≤ 1 := h.2 rid entry hg
    have hlen1 : (appendResp entry resp now).responses.length =
        entry.responses.length + 1 := by
      simp [appendResp]
    have hnd1 : NodupKeys (dictSet st rid (appendResp entry resp now)) :=
      nodupKeys_dictSet h.1 _ _
    have hget1 : ∀ rid2 entry2, rid2 ≠ rid →
        dictGet (dictSet st rid (appendResp entry resp now)) rid2 =
          some entry2 → entry2.responses.length ≤ 1 := by
      intro rid2 entry2 hne hg2
      rw [dictGet_dictSet, if_neg hne] at hg2
      exact h.2 rid2 entry2 hg2
    rcases hc : confidenceOf resp.result with _ | conf
    · rw [respWF, hc] at hWF
      cases hWF
    · rw [show needsAdditionalCollaboration (appendResp entry resp now) resp =
          (if (appendResp entry resp now).responses.length ≥ 2 then some false
           else some (conf.blt ⟨7, 1⟩)) by
        rw [needsAdditionalCollaboration, hc]]
      by_cases hge : (appendResp entry resp now).responses.length ≥ 2
      · rw [if_pos hge]
        exact orchInv_finalize rid _ now _ hnd1 hget1
      · rw [if_neg hge]
        have hsmall1 : SmallEntries (dictSet st rid (appendResp entry resp now)) := by
          intro rid2 entry2 hg2
          by_cases he : rid2 = rid
          · subst he
            rw [dictGet_dictSet, if_pos rfl] at hg2
            cases hg2
            omega
          · exact hget1 rid2 entry2 he hg2
        cases hblt : conf.blt ⟨7, 1⟩
        · exact orchInv_finalize rid _ now _ hnd1 hget1
        · rcases determineNextAgent env.registry (appendResp entry resp now)
            with _ | a2
          · exact orchInv_finalize rid _ now _ hnd1 hget1
          · exact orchInv_route env _ _ uid now _ ⟨hnd1, hsmall1⟩

theorem orchInv_run (env : OrchEnv) (ops : List OrchOp)
    (hops : ∀ op ∈ ops, opWF op = true) : OrchInv (orchRun env ops) := by
  have key : ∀ (l : List OrchOp) (st : List (String × ActiveEntry)),
      (∀ op ∈ l, opWF op = true) → OrchInv st →
      OrchInv (l.foldl (orchStep env) st) := by
    intro l
    induction l with
    | nil => intro st _ h; exact h
    | cons op rest ih =>
      intro st hl h
      refine ih _ (fun o ho => hl o (List.mem_cons_of_mem _ ho)) ?_
      have hop := hl op (List.mem_cons_self _ _)
      cases op with
      | route rd c uid now => exact orchInv_route env rd c uid now st h
      | respond rid resp uid now =>
        exact orchInv_respond env rid resp uid now st hop h
  refine key ops [] hops ⟨?_, ?_⟩
  · simp [NodupKeys]
  · intro rid entry hg
    cases hg

/-! ### A concrete deployment used by the engine claims -/

/-- A marketing agent registration, alongside `rdFin`. -/
def rdMkt : RegistrationData :=
  ⟨"marketing-1", "marketing", ["campaign_analysis"], "http://10.0.0.3:8082",
    "http://10.0.0.3:29345", some "q2", some "pk2"⟩

/-- A registry with a verified finance and a verified marketing agent for
client `acme`. -/
def regTwo : RegistryState :=
  regRun [.register rdFin "acme" true (.obj []) ⟨0, 0⟩,
          .register rdMkt "acme" true (.obj []) ⟨0, 0⟩]

/-- Engine environment: both spokes configured, the network answering
every POST with 200 `{}`. -/
def envTwo : OrchEnv :=
  ⟨regTwo, ["finance", "marketing"], fun _ _ => .ok (.obj []), 3, ⟨9, 1⟩⟩

/-- Scenario S2's request: a financial query. -/
def rdReq : RequestData :=
  ⟨"Compute Q4 ROI", none, .obj [("marketing_spend", .num ⟨50000, 0⟩)],
    ["financial_data"]⟩

/-- The table after routing `rdReq` (routing id `route_aaaaaaaa`, target
`finance-1`). -/
def stOne : List (String × ActiveEntry) :=
  orchRun envTwo [.route rdReq "acme" "aaaaaaaa" ⟨0, 0⟩]

/-- The finance agent's low-confidence first response. -/
def respLow : RespData :=
  ⟨some "finance-1", some "finance",
    some (.obj [("confidence_score", .num ⟨6, 1⟩)])⟩

/-- A low-confidence response to the escalated routing id. -/
def respLow2 : RespData :=
  ⟨some "finance-1", some "finance",
    some (.obj [("confidence_score", .num ⟨5, 1⟩)])⟩

/-- The high-confidence second response of scenario S2. -/
def respHigh : RespData :=
  ⟨some "finance-1", some "finance",
    some (.obj [("confidence_score", .num ⟨85, 2⟩)])⟩

/-! ### C3 — dispatch failure and the active-requests entry -/

/-- The property claim C3 asserts of the code: when the transport dispatch
fails (the embedded `collaboration_result` carries an `error`), the
active-collaborations table is left unchanged — no entry for the new
routing id. -/
def DispatchFailureLeavesNoEntry : Prop :=
  ∀ (env : OrchEnv) (rd : RequestData) (client_id uid : String) (now : JNum)
    (st : List (String × ActiveEntry)) (cres : Json),
    (routeRequest env rd client_id uid now st).1.get "collaboration_result" =
      some cres →
    cres.get "error" ≠ none →
    (routeRequest env rd client_id uid now st).2 = st

/-- An environment whose transport has no spoke endpoints configured, so
every dispatch fails with `not configured`. -/
def envNoSpokes : OrchEnv :=
  ⟨regRun [.register rdFin "acme" true (.obj []) ⟨0, 0⟩], [],
    fun _ _ => .ok (.obj []), 3, ⟨9, 1⟩⟩

/-- C3 fails on the code: `route_request` stores the entry *before*
dispatching, and `send_to_agent` returns (never raises) its errors, so a
failed dispatch leaves the fresh entry in `active_requests`. -/
theorem claim_C3_counterexample : ¬ DispatchFailureLeavesNoEntry := by
  intro h
  have h2 := h envNoSpokes rdReq "acme" "aaaaaaaa" ⟨0, 0⟩ []
    (.obj [("error", .str "Agent VM finance not configured")])
    (by decide) (by decide)
  exact absurd h2 (by decide)

/-- **C3 (amended).** Whenever routing proceeds (an agent was available),
the active-collaboration entry for the new routing id is created *before*
dispatch and remains in the table whatever the transport outcome; a
dispatch failure is not surfaced as a routing failure but embedded in the
returned `collaboration_result`. -/
theorem claim_C3_entry_created_before_dispatch (env : OrchEnv)
    (rd : RequestData) (client_id uid : String) (now : JNum)
    (st : List (String × ActiveEntry)) (target : Agent) (reasoning : String)
    (htarget : routeTarget env rd client_id = some (target, reasoning)) :
    (routeRequest env rd client_id uid now st).2 =
      dictSet st ("route_" ++ uid) ⟨rd, target, client_id, now, []⟩
    ∧ (routeRequest env rd client_id uid now st).1.get "collaboration_result"
        = some (sendToAgent env.endpoints env.net target.agent_type
            (dispatchData rd ("route_" ++ uid)
              (prepareDataPackage rd client_id now)
              (mockRouteToAgent env.rEst env.rConf rd.query
                (availableAgents env rd client_id)).priority)) := by
  unfold routeRequest
  rw [htarget]
  exact ⟨rfl, rfl⟩

/-- Witness for C3 (amended): routing in `envNoSpokes` — the dispatch
fails with `not configured`, yet the entry for `route_aaaaaaaa` exists. -/
theorem claim_C3_entry_created_before_dispatch_witness :
    routeTarget envNoSpokes rdReq "acme" =
      some (registeredAgent rdFin "acme" "q1" "pk1" (.obj []) ⟨0, 0⟩,
        "Query contains financial terms requiring specialized analysis")
    ∧ ((routeRequest envNoSpokes rdReq "acme" "aaaaaaaa" ⟨0, 0⟩ []).2 =
        dictSet [] "route_aaaaaaaa"
          ⟨rdReq, registeredAgent rdFin "acme" "q1" "pk1" (.obj []) ⟨0, 0⟩,
            "acme", ⟨0, 0⟩, []⟩
      ∧ (routeRequest envNoSpokes rdReq "acme" "aaaaaaaa" ⟨0, 0⟩ []).1.get
          "collaboration_result" =
          some (sendToAgent envNoSpokes.endpoints envNoSpokes.net
            (registeredAgent rdFin "acme" "q1" "pk1" (.obj [])
              ⟨0, 0⟩).agent_type
            (dispatchData rdReq "route_aaaaaaaa"
              (prepareDataPackage rdReq "acme" ⟨0, 0⟩)
              (mockRouteToAgent envNoSpokes.rEst envNoSpokes.rConf rdReq.query
                (availableAgents envNoSpokes rdReq "acme")).priority)))
    ∧ (routeRequest envNoSpokes rdReq "acme" "aaaaaaaa" ⟨0, 0⟩ []).1.get
        "collaboration_result" =
        some (.obj [("error", .str "Agent VM finance not configured")]) :=
  ⟨by decide,
    claim_C3_entry_created_before_dispatch envNoSpokes rdReq "acme"
      "aaaaaaaa" ⟨0, 0⟩ []
      (registeredAgent rdFin "acme" "q1" "pk1" (.obj []) ⟨0, 0⟩)
      "Query contains financial terms requiring specialized analysis"
      (by decide),
    by decide⟩

/-! ### C5 — escalation target -/

/-- **C5 (failing input).** In scenario S2's deployment the finance agent
answers `route_aaaaaaaa` with confidence 0.6.  `_determine_next_agent`
computes `marketing-1` — the first agent that has not responded — but
`process_collaboration_response` re-routes by calling `route_request`,
whose keyword policy sends the same query to `finance` again: the
escalated-to agent equals the original responder.  Moreover the two-response
cap is tracked per routing id, so a low-confidence answer to the escalated
id `route_bbbbbbbb` escalates a second time (`route_dddddddd`) for the
same original request. -/
theorem claim_C5_escalation_bug :
    (dictGet stOne "route_aaaaaaaa").map
        (fun e => e.target_agent.agent_id) = some "finance-1"
    ∧ respLow.agent_id = some "finance-1"
    ∧ (dictGet (processCollaborationResponse envTwo "route_aaaaaaaa" respLow
          "bbbbbbbb" ⟨1, 0⟩ stOne).2 "route_aaaaaaaa").map
        (fun e => (determineNextAgent envTwo.registry e).map Agent.agent_id)
        = some (some "marketing-1")
    ∧ (processCollaborationResponse envTwo "route_aaaaaaaa" respLow
        "bbbbbbbb" ⟨1, 0⟩ stOne).1.get "target_agent" =
        some (.str "finance-1")
    ∧ (processCollaborationResponse envTwo "route_bbbbbbbb" respLow2
        "dddddddd" ⟨3, 0⟩ (processCollaborationResponse envTwo
          "route_aaaaaaaa" respLow "bbbbbbbb" ⟨1, 0⟩ stOne).2).1.get
        "routing_id" = some (.str "route_dddddddd") := by
  refine ⟨by decide, by decide, by decide, by decide, by decide⟩

/-! ### C4 — completed collaborations -/

/-- The routing id an op could insert into the table (`route_request`
builds `route_<uid>` both on a client route and on an escalation). -/
def opIntroducesId (op : OrchOp) (rid : String) : Bool :=
  match op with
  | .route _ _ uid _ => ("route_" ++ uid) == rid
  | .respond _ _ uid _ => ("route_" ++ uid) == rid

theorem dictGet_none_routeRequest (env : OrchEnv) (rd : RequestData)
    (client_id uid : String) (now : JNum)
    (st : List (String × ActiveEntry)) (rid : String)
    (hne : rid ≠ "route_" ++ uid) (h : dictGet st rid = none) :
    dictGet (routeRequest env rd client_id uid now st).2 rid = none := by
  unfold routeRequest
  rcases ht : routeTarget env rd client_id with _ | ⟨t, r⟩
  · exact h
  · show dictGet (dictSet st ("route_" ++ uid) ⟨rd, t, client_id, now, []⟩)
      rid = none
    rw [dictGet_dictSet, if_neg hne]
    exact h

theorem dictGet_none_orchStep (env : OrchEnv) (rid : String) (op : OrchOp)
    (st : List (String × ActiveEntry))
    (hid : opIntroducesId op rid = false) (h : dictGet st rid = none) :
    dictGet (orchStep env st op) rid = none := by
  have hne : ∀ u : String, (("route_" ++ u) == rid) = false →
      rid ≠ "route_" ++ u := by
    intro u hu he
    rw [he] at hu
    simp at hu
  cases op with
  | route rd c uid now =>
    exact dictGet_none_routeRequest env rd c uid now st rid
      (hne uid hid) h
  | respond rid2 resp uid now =>
    show dictGet (processCollaborationResponse env rid2 resp uid now st).2
      rid = none
    rcases hg2 : dictGet st rid2 with _ | entry
    · rw [process_eq_notfound env rid2 resp uid now st hg2]
      exact h
    · have hne2 : rid ≠ rid2 := by
        intro he
        rw [he, hg2] at h
        cases h
      rw [process_eq_found env rid2 resp uid now st entry hg2]
      have hst1 : dictGet (dictSet st rid2 (appendResp entry resp now)) rid
          = none := by
        rw [dictGet_dictSet, if_neg hne2]
        exact h
      rcases needsAdditionalCollaboration (appendResp entry resp now) resp
        with _ | b
      · exact hst1
      · cases b
        · show dictGet (finalizeResponse rid2 (appendResp entry resp now)
            now (dictSet st rid2 (appendResp entry resp now))).2 rid = none
          show dictGet (dictDel (dictSet st rid2 (appendResp entry resp now))
            rid2) rid = none
          rw [dictGet_dictDel_ne _ _ _ hne2]
          exact hst1
        · rcases determineNextAgent env.registry (appendResp entry resp now)
            with _ | a2
          · show dictGet (dictDel (dictSet st rid2
              (appendResp entry resp now)) rid2) rid = none
            rw [dictGet_dictDel_ne _ _ _ hne2]
            exact hst1
          · exact dictGet_none_routeRequest env _ _ uid now _ rid
              (hne uid hid) hst1

theorem dictGet_none_foldl (env : OrchEnv) (rid : String) :
    ∀ (l : List OrchOp) (st : List (String × ActiveEntry)),
      (∀ op ∈ l, opIntroducesId op rid = false) →
      dictGet st rid = none →
      dictGet (l.foldl (orchStep env) st) rid = none := by
  intro l
  induction l with
  | nil => intro st _ h; exact h
  | cons op rest ih =>
    intro st hl h
    exact ih _ (fun o ho => hl o (List.mem_cons_of_mem _ ho))
      (dictGet_none_orchStep env rid op st (hl op (List.mem_cons_self _ _)) h)

/-- The conclusions of C4, phrased for the finalize branch. -/
theorem c4_finalize_core (env : OrchEnv) (ops : List OrchOp) (rid : String)
    (resp : RespData) (now : JNum)
    (hops : ∀ op ∈ ops, opWF op = true)
    (entry : ActiveEntry)
    (hg : dictGet (orchRun env ops) rid = some entry) :
    dictGet (finalizeResponse rid (appendResp entry resp now) now
        (dictSet (orchRun env ops) rid (appendResp entry resp now))).2 rid
        = none
    ∧ (finalizeResponse rid (appendResp entry resp now) now
        (dictSet (orchRun env ops) rid (appendResp entry resp now))).1.get
        "synthesis" =
        some (synthesizeResults (appendResp entry resp now).responses)
    ∧ (finalizeResponse rid (appendResp entry resp now) now
        (dictSet (orchRun env ops) rid (appendResp entry resp now))).1.get
        "responses" =
        some (.arr ((appendResp entry resp now).responses.map
          respRecordToJson))
    ∧ 1 ≤ (appendResp entry resp now).responses.length
    ∧ (appendResp entry resp now).responses.length ≤ 2
    ∧ (entry.responses.length = 1 →
        (appendResp entry resp now).responses.length = 2)
    ∧ (∀ (resp2 : RespData) (uid2 : String) (now2 : JNum),
        processCollaborationResponse env rid resp2 uid2 now2
            (finalizeResponse rid (appendResp entry resp now) now
              (dictSet (orchRun env ops) rid (appendResp entry resp now))).2 =
          (.obj [("error", .str "Unknown routing ID")],
            (finalizeResponse rid (appendResp entry resp now) now
              (dictSet (orchRun env ops) rid
                (appendResp entry resp now))).2))
    ∧ (∀ more : List OrchOp,
        (∀ op ∈ more, opIntroducesId op rid = false) →
        ∀ (resp2 : RespData) (uid2 : String) (now2 : JNum),
          (processCollaborationResponse env rid resp2 uid2 now2
              (more.foldl (orchStep env)
                (finalizeResponse rid (appendResp entry resp now) now
                  (dictSet (orchRun env ops) rid
                    (appendResp entry resp now))).2)).1 =
            .obj [("error", .str "Unknown routing ID")]) := by
  have hnd1 : NodupKeys (dictSet (orchRun env ops) rid
      (appendResp entry resp now)) :=
    nodupKeys_dictSet (orchInv_run env ops hops).1 _ _
  have hnone : dictGet (finalizeResponse rid (appendResp entry resp now) now
      (dictSet (orchRun env ops) rid (appendResp entry resp now))).2 rid
      = none := by
    show dictGet (dictDel (dictSet (orchRun env ops) rid
      (appendResp entry resp now)) rid) rid = none
    exact dictGet_dictDel_self hnd1 rid
  have hlen : entry.responses.length ≤ 1 :=
    (orchInv_run env ops hops).2 rid entry hg
  have happ : (appendResp entry resp now).responses.length =
      entry.responses.length + 1 := by
    simp [appendResp]
  refine ⟨hnone, rfl, rfl, by omega, by omega, by omega, ?_, ?_⟩
  · intro resp2 uid2 now2
    exact process_eq_notfound env rid resp2 uid2 now2 _ hnone
  · intro more hmore resp2 uid2 now2
    rw [process_eq_notfound env rid resp2 uid2 now2 _
      (dictGet_none_foldl env rid more _ hmore hnone)]

/-- **C4.** For every routing id `R` whose collaboration completed normally
(the post returned `status = completed`), under well-formed responses: the
active-collaboration entry for `R` no longer exists; the synthesis was
computed over the collected responses, of which there are at least 1 and
at most 2 — exactly 2 when the entry already held a response, i.e. after
one escalation; and any further post to `R` (immediately, or after any
further calls that do not re-issue `R` as a fresh routing id) fails with
the unknown-routing-id error. -/
theorem claim_C4_completed_collaboration (env : OrchEnv) (ops : List OrchOp)
    (rid : String) (resp : RespData) (uid : String) (now : JNum)
    (hops : ∀ op ∈ ops, opWF op = true)
    (hresp : respWF resp = true)
    (hcomp : (processCollaborationResponse env rid resp uid now
        (orchRun env ops)).1.get "status" = some (.str "completed")) :
    ∃ entry, dictGet (orchRun env ops) rid = some entry
      ∧ dictGet (processCollaborationResponse env rid resp uid now
          (orchRun env ops)).2 rid = none
      ∧ (processCollaborationResponse env rid resp uid now
          (orchRun env ops)).1.get "synthesis" =
          some (synthesizeResults (appendResp entry resp now).responses)
      ∧ (processCollaborationResponse env rid resp uid now
          (orchRun env ops)).1.get "responses" =
          some (.arr ((appendResp entry resp now).responses.map
            respRecordToJson))
      ∧ 1 ≤ (appendResp entry resp now).responses.length
      ∧ (appendResp entry resp now).responses.length ≤ 2
      ∧ (entry.responses.length = 1 →
          (appendResp entry resp now).responses.length = 2)
      ∧ (∀ (resp2 : RespData) (uid2 : String) (now2 : JNum),
          processCollaborationResponse env rid resp2 uid2 now2
              (processCollaborationResponse env rid resp uid now
                (orchRun env ops)).2 =
            (.obj [("error", .str "Unknown routing ID")],
              (processCollaborationResponse env rid resp uid now
                (orchRun env ops)).2))
      ∧ (∀ more : List OrchOp,
          (∀ op ∈ more, opIntroducesId op rid = false) →
          ∀ (resp2 : RespData) (uid2 : String) (now2 : JNum),
            (processCollaborationResponse env rid resp2 uid2 now2
                (more.foldl (orchStep env)
                  (processCollaborationResponse env rid resp uid now
                    (orchRun env ops)).2)).1 =
              .obj [("error", .str "Unknown routing ID")]) := by
  rcases hg : dictGet (orchRun env ops) rid with _ | entry
  · rw [process_eq_notfound env rid resp uid now _ hg] at hcomp
    exact Option.noConfusion hcomp
  · rw [process_eq_found env rid resp uid now _ entry hg] at hcomp ⊢
    rcases hc : confidenceOf resp.result with _ | conf
    · rw [respWF, hc] at hresp
      cases hresp
    · rw [show needsAdditionalCollaboration (appendResp entry resp now) resp =
          (if (appendResp entry resp now).responses.length ≥ 2
           then some false
           else some (conf.blt ⟨7, 1⟩)) from by
        rw [needsAdditionalCollaboration, hc]] at hcomp ⊢
      by_cases hge : (appendResp entry resp now).responses.length ≥ 2
      · rw [if_pos hge] at hcomp ⊢
        exact ⟨entry, rfl, c4_finalize_core env ops rid resp now hops entry hg⟩
      · rw [if_neg hge] at hcomp ⊢
        cases hblt : conf.blt ⟨7, 1⟩
        · rw [hblt] at hcomp
          exact ⟨entry, rfl, c4_finalize_core env ops rid resp now hops entry hg⟩
        · rw [hblt] at hcomp
          rcases hnext : determineNextAgent env.registry
              (appendResp entry resp now) with _ | a2
          · rw [hnext] at hcomp
            exact ⟨entry, rfl,
              c4_finalize_core env ops rid resp now hops entry hg⟩
          · rw [hnext] at hcomp
            rw [routeRequest_get_status] at hcomp
            cases hcomp

/-- Scenario S2's history: route the financial query (routing id
`route_aaaaaaaa`, target `finance-1`), then the 0.6-confidence response,
which escalates (opening `route_bbbbbbbb`) and leaves the original entry
holding one response. -/
def opsS2 : List OrchOp :=
  [.route rdReq "acme" "aaaaaaaa" ⟨0, 0⟩,
   .respond "route_aaaaaaaa" respLow "bbbbbbbb" ⟨1, 0⟩]

/-- Witness for C4: the 0.85-confidence second response to
`route_aaaaaaaa` completes the collaboration with exactly two responses;
the entry is gone and a further post is rejected. -/
theorem claim_C4_completed_collaboration_witness :
    (∀ op ∈ opsS2, opWF op = true)
    ∧ respWF respHigh = true
    ∧ (processCollaborationResponse envTwo "route_aaaaaaaa" respHigh
        "cccccccc" ⟨2, 0⟩ (orchRun envTwo opsS2)).1.get "status" =
        some (.str "completed")
    ∧ (∃ entry, dictGet (orchRun envTwo opsS2) "route_aaaaaaaa" = some entry
      ∧ dictGet (processCollaborationResponse envTwo "route_aaaaaaaa"
          respHigh "cccccccc" ⟨2, 0⟩ (orchRun envTwo opsS2)).2
          "route_aaaaaaaa" = none
      ∧ (processCollaborationResponse envTwo "route_aaaaaaaa" respHigh
          "cccccccc" ⟨2, 0⟩ (orchRun envTwo opsS2)).1.get "synthesis" =
          some (synthesizeResults
            (appendResp entry respHigh ⟨2, 0⟩).responses)
      ∧ (processCollaborationResponse envTwo "route_aaaaaaaa" respHigh
          "cccccccc" ⟨2, 0⟩ (orchRun envTwo opsS2)).1.get "responses" =
          some (.arr ((appendResp entry respHigh ⟨2, 0⟩).responses.map
            respRecordToJson))
      ∧ 1 ≤ (appendResp entry respHigh ⟨2, 0⟩).responses.length
      ∧ (appendResp entry respHigh ⟨2, 0⟩).responses.length ≤ 2
      ∧ (entry.responses.length = 1 →
          (appendResp entry respHigh ⟨2, 0⟩).responses.length = 2)
      ∧ (∀ (resp2 : RespData) (uid2 : String) (now2 : JNum),
          processCollaborationResponse envTwo "route_aaaaaaaa" resp2 uid2
              now2 (processCollaborationResponse envTwo "route_aaaaaaaa"
                respHigh "cccccccc" ⟨2, 0⟩ (orchRun envTwo opsS2)).2 =
            (.obj [("error", .str "Unknown routing ID")],
              (processCollaborationResponse envTwo "route_aaaaaaaa" respHigh
                "cccccccc" ⟨2, 0⟩ (orchRun envTwo opsS2)).2))
      ∧ (∀ more : List OrchOp,
          (∀ op ∈ more, opIntroducesId op "route_aaaaaaaa" = false) →
          ∀ (resp2 : RespData) (uid2 : String) (now2 : JNum),
            (processCollaborationResponse envTwo "route_aaaaaaaa" resp2 uid2
                now2 (more.foldl (orchStep envTwo)
                  (processCollaborationResponse envTwo "route_aaaaaaaa"
                    respHigh "cccccccc" ⟨2, 0⟩
                    (orchRun envTwo opsS2)).2)).1 =
              .obj [("error", .str "Unknown routing ID")])) :=
  ⟨by decide, by decide, by decide,
    claim_C4_completed_collaboration envTwo opsS2 "route_aaaaaaaa" respHigh
      "cccccccc" ⟨2, 0⟩ (by decide) (by decide) (by decide)⟩

end Boardroom
